import Mathlib

set_option linter.unusedVariables false

/-!
# Verification of the precompute caching and batch-job orchestration engine

Shallow embedding of `src/services/PrecomputeManager.ts` and the `PrecomputeService`
class of `src/components/PrecomputePanel.tsx`, together with proofs about the job
lifecycle, batching, retry, cache-TTL and confidence-scoring behaviour.

Modelling conventions:
* JavaScript strings are Lean `String`s; character-level operations
  (`split('"')`, `includes`) act on `String.data`.
* JavaScript numbers are `ℚ` (for fractional arithmetic such as `progress` and the
  confidence score) or `Int`/`Nat` where the source only ever holds integers.
  Timestamps (ISO strings produced from `Date.now()`) are epoch milliseconds (`Int`).
* The engine's network calls are an environment parameter: `QueryEnv` maps a query
  and an attempt number to the settled outcome of `processQuery`
  (`.ok response` for a fulfilled promise, `.error reason` for a rejected one).
  `Promise.allSettled` preserves input order, which the embedding mirrors by
  keeping outcomes index-aligned with the dispatched batch.
* JavaScript `Map` objects are insertion-ordered association lists with
  replace-on-set semantics (`mapSet` / `mapGet`).
* Execution is single-threaded and cooperative, exactly as in the JS event loop:
  the only interleaving points are the `await`s of `executeJob`.  The functions
  `executeJobStart`, `duringExecution`, `cancelJob` and `resumeExecution` expose
  the states the scheduler can observe at those suspension points.
-/

namespace XAIAssist

/-- JavaScript `Map` lookup (`map.get(k)`), `none` for a missing key. -/
def mapGet (m : List (String × β)) (k : String) : Option β :=
  (m.find? (fun p => p.1 = k)).map (fun p => p.2)

/-- JavaScript `Map.set`: replace the value in place if the key is present
(keeping insertion order), otherwise append the new binding. -/
def mapSet (m : List (String × β)) (k : String) (v : β) : List (String × β) :=
  if m.any (fun p => p.1 = k) then
    m.map (fun p => if p.1 = k then (k, v) else p)
  else m ++ [(k, v)]

/-- JavaScript `s.split(sep)` for a one-character separator: splits at every
occurrence, keeping empty segments at the ends. -/
def splitOnChar (sep : Char) : List Char → List (List Char)
  | [] => [[]]
  | c :: cs =>
    match splitOnChar sep cs with
    | [] => [[]]
    | s :: ss => if c = sep then [] :: s :: ss else (c :: s) :: ss

/-- JavaScript `e.includes(q)`: `q` occurs as a contiguous substring of `e`
(both sides agree that the empty string is a substring of everything). -/
def includesStr (e q : String) : Bool := decide (q.data <:+: e.data)

/-- The per-query failure record pushed by `executeJob`
(PrecomputeManager.ts:104): `Query "<query>": <reason>`. -/
def errorMessage (query reason : String) : String :=
  "Query \"" ++ query ++ "\": " ++ reason

/-- `error.split('"')[1]` from `retryFailedQueries` (PrecomputeManager.ts:252):
the segment between the first two double quotes; `none` models the JavaScript
`undefined` produced when the string has no quote. -/
def extractQuery (error : String) : Option String :=
  match splitOnChar '"' error.data with
  | _ :: q :: _ => some (String.mk q)
  | _ => none

/-- Explanation record attached to each precomputed response.  The source's
`XAIExplanation` also carries per-tab texts, a concept graph, SHAP values and
suggested prompts; the claims under verification only ever read the whole record
opaquely or its `confidence`, so only `response` and `confidence` are modelled. -/
structure XAIExplanation where
  response : String
  confidence : Int
deriving DecidableEq, Repr

/-- `metadata` block of a `PrecomputedResponse` (PrecomputePanel.tsx:471-476). -/
structure ResponseMetadata where
  model : String
  tokens : Nat
  processingTime : Int
  xaiProcessingTime : Int
deriving DecidableEq, Repr

/-- `PrecomputedResponse` (PrecomputePanel.tsx:463-477).  `id` is the opaque
value of `crypto.randomUUID()`; `timestamp` is the creation instant in epoch
milliseconds (an ISO string in the source). -/
structure PrecomputedResponse where
  id : Nat
  queryHash : String
  originalQuery : String
  openaiResponse : String
  xaiExplanation : XAIExplanation
  timestamp : Int
  confidence : Int
  metadata : ResponseMetadata
deriving DecidableEq, Repr

/-- `PrecomputeJob.status` (PrecomputeManager.ts:8). -/
inductive JobStatus where
  | pending
  | running
  | completed
  | failed
deriving DecidableEq, Repr

/-- `PrecomputeJob` (PrecomputeManager.ts:5-14).  `startTime`/`endTime` are
epoch milliseconds. -/
structure PrecomputeJob where
  id : String
  queries : List String
  status : JobStatus
  progress : ℚ
  startTime : Int
  endTime : Option Int
  results : List PrecomputedResponse
  errors : List String
deriving DecidableEq, Repr

/-- `BatchPrecomputeOptions` (PrecomputeManager.ts:16-22). -/
structure BatchPrecomputeOptions where
  batchSize : Nat
  delayBetweenBatches : Nat
  enableXAI : Bool
  retryFailedQueries : Bool
  maxRetries : Nat
deriving DecidableEq, Repr

/-- Settled outcome of `PrecomputeManager.processQuery` for a given query at a
given attempt number: attempt `0` is the initial batch pass, attempt `a ≥ 1` is
retry round `a`.  `processQuery` rejects exactly when
`precomputeService.precomputeResponse` rejects (`enhanceWithOmniXAI` catches its
own failures and falls back, PrecomputeManager.ts:186-189), and never resolves
to `null`, so an outcome is either a response or a rejection reason. -/
abbrev QueryEnv := String → Nat → Except String PrecomputedResponse

namespace PrecomputeManager

/-- `createBatches` (PrecomputeManager.ts:239-245): slices of `batchSize`
consecutive queries.  The JS `for`-loop advances its index by `batchSize`; the
recursion is driven by a fuel initialised to the list length, which suffices for
every `batchSize ≥ 1`.  (For `batchSize = 0` the source loop never terminates on
a non-empty list; the `BatchConfig` contract requires `batchSize ≥ 1`.) -/
def createBatchesAux (batchSize : Nat) : Nat → List α → List (List α)
  | _, [] => []
  | 0, _ :: _ => []
  | fuel + 1, x :: l => ((x :: l).take batchSize) :: createBatchesAux batchSize fuel ((x :: l).drop batchSize)

/-- `createBatches(array, batchSize)` (PrecomputeManager.ts:239-245). -/
def createBatches (l : List α) (batchSize : Nat) : List (List α) :=
  createBatchesAux batchSize l.length l

/-- The `batchResults.forEach` block of `executeJob` (PrecomputeManager.ts:99-106):
fulfilled outcomes are appended to `job.results`, rejected ones to `job.errors`
as `Query "<query>": <reason>`, where the query is read off `batch[index]` —
attribution is by position in the batch, not by completion order. -/
def applyBatchResults (job : PrecomputeJob) (batch : List String)
    (batchResults : List (Except String PrecomputedResponse)) : PrecomputeJob :=
  (batchResults.zip batch).foldl (fun j rq =>
    match rq.1 with
    | .ok v => { j with results := j.results ++ [v] }
    | .error reason => { j with errors := j.errors ++ [errorMessage rq.2 reason] }) job

/-- One iteration of the batch loop of `executeJob` (PrecomputeManager.ts:83-111):
dispatch every query of the batch, wait for all of them to settle
(`Promise.allSettled`, which keeps outcomes in dispatch order), advance
`processedCount`, set `job.progress = processedCount / totalQueries * 100`, and
record the settled outcomes. -/
def runBatch (env : QueryEnv) (totalQueries : Nat)
    (acc : Nat × PrecomputeJob) (batch : List String) : Nat × PrecomputeJob :=
  let batchResults := batch.map (fun q => env q 0)
  let processedCount := acc.1 + batch.length
  let job := { acc.2 with progress := ((processedCount : ℚ) / (totalQueries : ℚ)) * 100 }
  (processedCount, applyBatchResults job batch batchResults)

/-- The whole batch loop of `executeJob` (PrecomputeManager.ts:80-112). -/
def runBatchLoop (env : QueryEnv) (opts : BatchPrecomputeOptions)
    (job : PrecomputeJob) : PrecomputeJob :=
  ((createBatches job.queries opts.batchSize).foldl
    (runBatch env job.queries.length) (0, job)).2

/-- Recovery of the failed queries from `job.errors`
(PrecomputeManager.ts:251-253): take the text between the first two quotes of
each error string and drop falsy (absent or empty) extractions. -/
def failedQueriesOf (errors : List String) : List String :=
  (errors.filterMap extractQuery).filter (fun q => q ≠ "")

/-- The body of the inner `for (const query of failedQueries)` loop of
`retryFailedQueries` (PrecomputeManager.ts:262-278): a success pushes the
response onto `job.results` and removes from `job.errors` every string that
`includes` the query; a failure appends the query to `remainingFailures`. -/
def retryStep (env : QueryEnv) (attempt : Nat)
    (acc : List String × PrecomputeJob) (query : String) :
    List String × PrecomputeJob :=
  match env query attempt with
  | .ok response =>
    (acc.1, { acc.2 with
      results := acc.2.results ++ [response]
      errors := acc.2.errors.filter (fun e => !(includesStr e query)) })
  | .error _ => (acc.1 ++ [query], acc.2)

/-- One round of the retry loop (PrecomputeManager.ts:260-278): retry each
failed query sequentially, starting from an empty `remainingFailures` list. -/
def retryRound (env : QueryEnv) (attempt : Nat) (failedQueries : List String)
    (job : PrecomputeJob) : List String × PrecomputeJob :=
  failedQueries.foldl (retryStep env attempt) ([], job)

/-- The attempt loop of `retryFailedQueries` (PrecomputeManager.ts:259-286):
rounds `attempt = 1, …, maxRetries` (the fuel counts the remaining rounds),
stopping early when a round ends with no remaining failures.  The source never
reassigns `failedQueries` to `remainingFailures`, so every round iterates over
the full original list — the embedding reproduces this faithfully. -/
def retryAttempts (env : QueryEnv) (failedQueries : List String) :
    Nat → Nat → PrecomputeJob → PrecomputeJob
  | _, 0, job => job
  | attempt, fuel + 1, job =>
    let step := retryRound env attempt failedQueries job
    if step.1.isEmpty then step.2
    else retryAttempts env failedQueries (attempt + 1) fuel step.2

/-- `retryFailedQueries(job, options)` (PrecomputeManager.ts:250-287). -/
def retryFailedQueries (env : QueryEnv) (opts : BatchPrecomputeOptions)
    (job : PrecomputeJob) : PrecomputeJob :=
  let failedQs := failedQueriesOf job.errors
  if failedQs.isEmpty then job
  else retryAttempts env failedQs 1 opts.maxRetries job

/-- The body of `executeJob` after admission (PrecomputeManager.ts:79-120):
batch loop, optional retry pass (guarded by `options.retryFailedQueries &&
job.errors.length > 0`), then the terminal transition
`status := completed; endTime := now`.  Nothing inside the `try` block can throw
in the model (per-query failures are captured by `allSettled` and the retry
loop's `catch`), so the `catch` branch of the source is unreachable here. -/
def executeJobRun (env : QueryEnv) (opts : BatchPrecomputeOptions) (endT : Int)
    (job : PrecomputeJob) : PrecomputeJob :=
  let job := runBatchLoop env opts job
  let job :=
    if opts.retryFailedQueries && !job.errors.isEmpty then
      retryFailedQueries env opts job
    else job
  { job with status := .completed, endTime := some endT }

/-- The manager's own state (PrecomputeManager.ts:27-28): the job table and the
single-flight flag. -/
structure ManagerState where
  jobs : List (String × PrecomputeJob)
  isProcessing : Bool
deriving DecidableEq, Repr

/-- `createJob(queries)` (PrecomputeManager.ts:38-51): a fresh `pending` job
with a copy of the query list; `freshId` is the opaque generated id and `now`
the creation instant. -/
def createJob (st : ManagerState) (freshId : String) (now : Int)
    (queries : List String) : ManagerState × PrecomputeJob :=
  let job : PrecomputeJob :=
    { id := freshId, queries := queries, status := .pending, progress := 0,
      startTime := now, endTime := none, results := [], errors := [] }
  ({ st with jobs := mapSet st.jobs freshId job }, job)

/-- Admission prologue of `executeJob` (PrecomputeManager.ts:66-77): unknown id
throws `Job <id> not found`; a set `isProcessing` flag throws
`Another job is currently processing` (the spec's `JobConflictError`); otherwise
the flag is taken and the job switches to `running`. -/
def executeJobStart (st : ManagerState) (jobId : String) (startT : Int) :
    Except String (ManagerState × PrecomputeJob) :=
  match mapGet st.jobs jobId with
  | none => .error ("Job " ++ jobId ++ " not found")
  | some job =>
    if st.isProcessing then .error "Another job is currently processing"
    else
      let job := { job with status := .running, startTime := startT }
      .ok ({ jobs := mapSet st.jobs jobId job, isProcessing := true }, job)

/-- Epilogue of `executeJob`: the job object is shared with the table (the JS
map stores the mutated object), and the `finally` clause clears `isProcessing`
(PrecomputeManager.ts:126-128). -/
def executeJobFinish (st : ManagerState) (jobId : String)
    (job : PrecomputeJob) : ManagerState :=
  { jobs := mapSet st.jobs jobId job, isProcessing := false }

/-- `executeJob(jobId, options)` (PrecomputeManager.ts:56-131) run to
completion with no interleaved calls: admission, batch loop, retry pass,
terminal transition, flag release. -/
def executeJob (st : ManagerState) (jobId : String) (env : QueryEnv)
    (opts : BatchPrecomputeOptions) (startT endT : Int) :
    Except String (ManagerState × PrecomputeJob) :=
  (executeJobStart st jobId startT).map (fun p =>
    let job := executeJobRun env opts endT p.2
    (executeJobFinish p.1 jobId job, job))

/-- The manager state observable while `executeJob` is suspended at the
`await Promise.allSettled` of batch `k` (equally, at the inter-batch delay
after batch `k`): the first `k` batches have settled and been recorded, the job
is `running`, and `isProcessing` is still set.  (If admission would have
failed, the state is unchanged.) -/
def duringExecution (st : ManagerState) (jobId : String) (env : QueryEnv)
    (opts : BatchPrecomputeOptions) (startT : Int) (k : Nat) : ManagerState :=
  match executeJobStart st jobId startT with
  | .error _ => st
  | .ok p =>
    let batches := createBatches p.2.queries opts.batchSize
    let job := ((batches.take k).foldl (runBatch env p.2.queries.length) (0, p.2)).2
    { jobs := mapSet p.1.jobs jobId job, isProcessing := true }

/-- `cancelJob(jobId)` (PrecomputeManager.ts:306-316): only acts on a `running`
job; flips it to `failed`, stamps `endTime`, appends the cancellation marker
and clears the single-flight flag. -/
def cancelJob (st : ManagerState) (jobId : String) (now : Int) :
    Bool × ManagerState :=
  match mapGet st.jobs jobId with
  | some job =>
    if job.status = .running then
      let job := { job with
        status := .failed
        endTime := some now
        errors := job.errors ++ ["Job cancelled by user"] }
      (true, { jobs := mapSet st.jobs jobId job, isProcessing := false })
    else (false, st)
  | none => (false, st)

/-- The continuation of a suspended `executeJob` once its awaited batch `k`
settles, applied to whatever manager state is current at that moment (the loop
holds no snapshot: it keeps mutating the shared job object and finishes with
`status := completed`, `endTime := now` and the `finally` release of
`isProcessing`).  `processed` is the value of `processedCount` at suspension,
i.e. the number of queries in the first `k` batches.  This is the piece of the
source that runs after a mid-flight `cancelJob`: nothing in it re-checks
`job.status` (PrecomputeManager.ts:83-128). -/
def resumeExecution (st : ManagerState) (jobId : String) (env : QueryEnv)
    (opts : BatchPrecomputeOptions) (endT : Int) (k processed : Nat) : ManagerState :=
  match mapGet st.jobs jobId with
  | none => st
  | some job =>
    let batches := createBatches job.queries opts.batchSize
    let job := ((batches.drop k).foldl (runBatch env job.queries.length) (processed, job)).2
    let job :=
      if opts.retryFailedQueries && !job.errors.isEmpty then
        retryFailedQueries env opts job
      else job
    let job := { job with status := .completed, endTime := some endT }
    { jobs := mapSet st.jobs jobId job, isProcessing := false }

end PrecomputeManager

namespace PrecomputeService

/-- `PrecomputeConfig` (PrecomputePanel.tsx:479-486). -/
structure PrecomputeConfig where
  openaiApiKey : String
  model : String
  temperature : ℚ
  maxTokens : Nat
  enableXAI : Bool
  cacheExpiry : Int
deriving Repr

/-- `query.toLowerCase()`, modelled character-wise (ASCII case mapping). -/
def toLowerStr (s : String) : String := String.mk (s.data.map Char.toLower)

/-- `s.trim()`: strip whitespace from both ends. -/
def trimStr (s : String) : String :=
  String.mk (((s.data.dropWhile Char.isWhitespace).reverse.dropWhile
    Char.isWhitespace).reverse)

/-- `generateQueryHash(query)` (PrecomputePanel.tsx:501-503): a SHA-256 hex
digest of the lower-cased, trimmed query (`query.toLowerCase().trim()`).  The
digest function itself is an opaque parameter `sha256Hex`; the source relies
only on its determinism. -/
def generateQueryHash (sha256Hex : String → String) (query : String) : String :=
  sha256Hex (trimStr (toLowerStr query))

/-- In-memory service state: the `cache` map plus the `localStorage` slot under
`xai_precomputed_responses` (`none` when the key is absent; the JSON round trip
is modelled as the identity on the stored record list). -/
structure ServiceState where
  cache : List (String × PrecomputedResponse)
  stored : Option (List PrecomputedResponse)
deriving DecidableEq, Repr

/-- `loadCache()` (PrecomputePanel.tsx:508-526): walk the persisted record
list; a record whose age `now − timestamp` is strictly below
`cacheExpiry` hours (converted to milliseconds) is installed under its stored
`queryHash`; expired records are dropped.  Later records overwrite earlier ones
with the same hash (`Map.set`). -/
def loadCache (config : PrecomputeConfig) (stored : Option (List PrecomputedResponse))
    (now : Int) : List (String × PrecomputedResponse) :=
  match stored with
  | none => []
  | some responses =>
    responses.foldl (fun cache response =>
      let age := now - response.timestamp
      let maxAge := config.cacheExpiry * 60 * 60 * 1000
      if age < maxAge then mapSet cache response.queryHash response else cache) []

/-- `saveCache()` (PrecomputePanel.tsx:531-538): persist the full in-memory
entry set (write-through). -/
def saveCache (cache : List (String × PrecomputedResponse)) :
    Option (List PrecomputedResponse) :=
  some (cache.map (fun p => p.2))

/-- `getCachedResponse(query)` (PrecomputePanel.tsx:543-546): plain map lookup
under the query's hash, with no expiry check of its own. -/
def getCachedResponse (sha256Hex : String → String)
    (cache : List (String × PrecomputedResponse)) (query : String) :
    Option PrecomputedResponse :=
  mapGet cache (generateQueryHash sha256Hex query)

/-- `estimateTokens(text)` (PrecomputePanel.tsx:965-968):
`Math.ceil(text.length / 4)`. -/
def estimateTokens (text : String) : Nat :=
  (text.length + 3) / 4

/-- `createBasicExplanation(response)` (PrecomputePanel.tsx:970-985), restricted
to the modelled fields: fixed confidence 75.  (The fixed tab texts and suggested
prompts of the source are outside the modelled `XAIExplanation` fields.) -/
def createBasicExplanation (response : String) : XAIExplanation :=
  { response := response, confidence := 75 }

/-- `calculateConfidence(query, response, shapData)` (PrecomputePanel.tsx:887-898):
`Math.round(Math.min(20 + min(responseLength/500*50, 50) + min(Σ|shap|*100, 30), 95))`.
(The source also computes `query.length` but never uses it.)  `round` is
`⌊x + 1/2⌋`, the behaviour of `Math.round` on the non-negative values that can
occur here. -/
def calculateConfidence (query response : String)
    (shapData : List (String × ℚ)) : Int :=
  let responseLength : ℚ := response.length
  let shapVariance : ℚ := (shapData.map (fun p => |p.2|)).sum
  let lengthScore : ℚ := min (responseLength / 500 * 50) 50
  let shapScore : ℚ := min (shapVariance * 100) 30
  let baseScore : ℚ := 20
  round (min (baseScore + lengthScore + shapScore) 95)

/-- The formula for the confidence score as the specification words it:
`min(95, 20 + min(50, responseLength/500×50) + min(30, Σ|importance|×100))`,
rounded to an integer.  Stated from the spec's text, to be compared with
`calculateConfidence` above (which is translated from the source). -/
def specConfidenceFormula (response : String) (shapData : List (String × ℚ)) : Int :=
  round (min 95 (20 + min 50 ((response.length : ℚ) / 500 * 50)
    + min 30 ((shapData.map (fun p => |p.2|)).sum * 100)))

/-- Result of one `precomputeResponse` call: the settled outcome, the service
state afterwards, and whether the external completion API was invoked. -/
structure PrecomputeCallResult where
  outcome : Except String PrecomputedResponse
  state : ServiceState
  upstreamCalled : Bool
deriving Repr

/-- `precomputeResponse(query)` (PrecomputePanel.tsx:551-599).
`upstream` is the external completion call (`getOpenAIResponse`), `synth` the
explanation synthesis (`generateXAIExplanation`), both supplied as fallible
environments; `uuid`, `now`, `openaiTime` and `xaiTime` are the fresh id and
clock readings.  Steps: cache lookup (immediate return on a hit); upstream
call; synthesis (or `createBasicExplanation` when XAI is disabled); entry
assembly; cache write plus write-through persistence.  A failure of the
upstream call or of synthesis reaches the `catch` block, which rethrows
`Precompute failed: <message>` — before any cache mutation.
The source stores `confidence: xaiExplanation.confidence || 75`, so a zero
(falsy) confidence is replaced by 75. -/
def precomputeResponse (sha256Hex : String → String)
    (upstream : String → Except String String)
    (synth : String → String → Except String XAIExplanation)
    (config : PrecomputeConfig) (st : ServiceState) (query : String)
    (uuid : Nat) (now openaiTime xaiTime : Int) : PrecomputeCallResult :=
  let queryHash := generateQueryHash sha256Hex query
  match getCachedResponse sha256Hex st.cache query with
  | some cached => { outcome := .ok cached, state := st, upstreamCalled := false }
  | none =>
    match upstream query with
    | .error e =>
      { outcome := .error ("Precompute failed: " ++ e), state := st, upstreamCalled := true }
    | .ok openaiResponse =>
      match (if config.enableXAI then synth query openaiResponse
             else .ok (createBasicExplanation openaiResponse)) with
      | .error e =>
        { outcome := .error ("Precompute failed: " ++ e), state := st, upstreamCalled := true }
      | .ok xaiExplanation =>
        let response : PrecomputedResponse :=
          { id := uuid
            queryHash := queryHash
            originalQuery := query
            openaiResponse := openaiResponse
            xaiExplanation := xaiExplanation
            timestamp := now
            confidence := if xaiExplanation.confidence = 0 then 75 else xaiExplanation.confidence
            metadata :=
              { model := config.model
                tokens := estimateTokens (query ++ openaiResponse)
                processingTime := openaiTime
                xaiProcessingTime := xaiTime } }
        let cache := mapSet st.cache queryHash response
        { outcome := .ok response
          state := { cache := cache, stored := saveCache cache }
          upstreamCalled := true }

end PrecomputeService

/-! ### Concrete fixtures used by witnesses and counterexamples -/

/-- A concrete response record for query `q`, created at `ts`. -/
def sampleResponse (q : String) (ts : Int) : PrecomputedResponse :=
  { id := 0
    queryHash := q
    originalQuery := q
    openaiResponse := "answer"
    xaiExplanation := { response := "answer", confidence := 75 }
    timestamp := ts
    confidence := 75
    metadata := { model := "gpt-4", tokens := 3, processingTime := 5,
                  xaiProcessingTime := 2 } }

/-- A concrete service configuration: 1-hour TTL, XAI enabled. -/
def sampleConfig : PrecomputeService.PrecomputeConfig :=
  { openaiApiKey := "key", model := "gpt-4", temperature := 0, maxTokens := 100,
    enableXAI := true, cacheExpiry := 1 }

/-- An environment where every call fulfills. -/
def envAllOk : QueryEnv := fun q _ => Except.ok (sampleResponse q 0)

/-- Concrete batch options: batch size 1, retries enabled. -/
def sampleOpts : BatchPrecomputeOptions :=
  { batchSize := 1, delayBetweenBatches := 0, enableXAI := true,
    retryFailedQueries := true, maxRetries := 3 }

namespace PrecomputeManager

/-! Concrete interleaving traces.  Execution is single-threaded: a second
operation can run only while `executeJob` is suspended at an `await`.  The
traces below follow the states of the source across those suspension points. -/

/-- C1 trace: one job `"A"` with two queries at batch size 1. -/
def c1state0 : ManagerState := (createJob ⟨[], false⟩ "A" 0 ["q1", "q2"]).1

/-- C1 trace: `executeJob "A"` admitted and suspended awaiting its first batch. -/
def c1mid : ManagerState := duringExecution c1state0 "A" envAllOk sampleOpts 10 0

/-- C1 trace: the user cancels `"A"` while the first batch is in flight. -/
def c1cancelled : ManagerState := (cancelJob c1mid "A" 20).2

/-- C1 trace: the awaited batch settles and the suspended loop runs to its end. -/
def c1final : ManagerState := resumeExecution c1cancelled "A" envAllOk sampleOpts 30 0 0

/-- C2 trace: three pending jobs `"A"`, `"B"`, `"C"`. -/
def c2state0 : ManagerState :=
  (createJob (createJob (createJob ⟨[], false⟩ "A" 0 ["qa"]).1 "B" 0 ["qb"]).1
    "C" 0 ["qc"]).1

/-- C2 trace: `executeJob "A"` admitted and suspended awaiting its first batch. -/
def c2mid : ManagerState := duringExecution c2state0 "A" envAllOk sampleOpts 10 0

/-- C2 trace: `"A"` cancelled mid-flight (this releases the single-flight flag). -/
def c2cancelled : ManagerState := (cancelJob c2mid "A" 20).2

/-- C2 trace: `executeJob "B"` is admitted (flag free) and suspends at its await. -/
def c2afterB : ManagerState :=
  match executeJobStart c2cancelled "B" 30 with
  | .ok p => p.1
  | .error _ => c2cancelled

/-- C2 trace: `"A"`'s suspended loop finishes; its `finally` clause clears
`isProcessing` even though it no longer owns the flag. -/
def c2afterAfin : ManagerState := resumeExecution c2afterB "A" envAllOk sampleOpts 40 0 0

/-! C3 fixtures: two queries at batch size 5 (a single batch), retries on. -/

/-- C3 witness (a): `"a"` fails attempts 0 and 1 and succeeds on attempt 2;
every other query always succeeds. -/
def envC3a : QueryEnv := fun q a =>
  if q = "a" ∧ a < 2 then Except.error "boom" else Except.ok (sampleResponse q 0)

/-- C3 witness (b): `"aaa"` always fails; every other query succeeds. -/
def envC3b : QueryEnv := fun q _ =>
  if q = "aaa" then Except.error "boom" else Except.ok (sampleResponse q 0)

/-- C3 counterexample: `"uer"` fails the batch pass and succeeds on every
retry round; `"b"` always fails. -/
def envC3c : QueryEnv := fun q a =>
  if q = "uer" ∧ 1 ≤ a then Except.ok (sampleResponse q 0) else Except.error "boom"

/-- C3 options: one batch of five, retries enabled, two retry rounds. -/
def optsC3 : BatchPrecomputeOptions :=
  { batchSize := 5, delayBetweenBatches := 0, enableXAI := true,
    retryFailedQueries := true, maxRetries := 2 }

/-- C3 counterexample options: three retry rounds. -/
def optsC3c : BatchPrecomputeOptions :=
  { batchSize := 5, delayBetweenBatches := 0, enableXAI := true,
    retryFailedQueries := true, maxRetries := 3 }

/-- C3 (a) initial state: a pending job `"J"` with queries `["a", "b"]`. -/
def c3aState : ManagerState := (createJob ⟨[], false⟩ "J" 0 ["a", "b"]).1

/-- C3 (b) initial state: a pending job `"J"` with queries `["aaa", "bbb"]`. -/
def c3bState : ManagerState := (createJob ⟨[], false⟩ "J" 0 ["aaa", "bbb"]).1

/-- C3 counterexample state: a pending job `"J"` with queries `["uer", "b"]`. -/
def c3cState : ManagerState := (createJob ⟨[], false⟩ "J" 0 ["uer", "b"]).1

end PrecomputeManager

/-! ## Lemmas about `createBatches` -/

namespace PrecomputeManager

theorem createBatchesAux_flatten {α : Type} (b : Nat) :
    ∀ (fuel : Nat) (l : List α), l.length ≤ fuel → 1 ≤ b →
      (createBatchesAux b fuel l).flatten = l := by
  intro fuel
  induction fuel with
  | zero =>
    intro l hl hb
    cases l with
    | nil => rfl
    | cons x xs => simp at hl
  | succ f ih =>
    intro l hl hb
    cases l with
    | nil => rfl
    | cons x xs =>
      have hdrop : (List.drop b (x :: xs)).length ≤ f := by
        simp only [List.length_drop, List.length_cons] at *
        omega
      simp only [createBatchesAux, List.flatten_cons, ih _ hdrop hb,
        List.take_append_drop]

theorem createBatches_flatten {α : Type} (l : List α) (b : Nat) (hb : 1 ≤ b) :
    (createBatches l b).flatten = l :=
  createBatchesAux_flatten b l.length l le_rfl hb

theorem createBatchesAux_nil {α : Type} (b fuel : Nat) :
    createBatchesAux b fuel ([] : List α) = [] := by
  cases fuel <;> rfl

theorem createBatchesAux_length {α : Type} (b : Nat) :
    ∀ (fuel : Nat) (l : List α), l.length ≤ fuel → 1 ≤ b →
      (createBatchesAux b fuel l).length = (l.length + b - 1) / b := by
  intro fuel
  induction fuel with
  | zero =>
    intro l hl hb
    cases l with
    | nil =>
      simp [createBatchesAux, Nat.div_eq_of_lt (show b - 1 < b by omega)]
    | cons x xs => simp at hl
  | succ f ih =>
    intro l hl hb
    cases l with
    | nil =>
      simp [createBatchesAux, Nat.div_eq_of_lt (show b - 1 < b by omega)]
    | cons x xs =>
      have hdrop : (List.drop b (x :: xs)).length ≤ f := by
        simp only [List.length_drop, List.length_cons] at *
        omega
      have hlen : (x :: xs).length = xs.length + 1 := by simp
      by_cases hbl : (x :: xs).length ≤ b
      · have hdropnil : List.drop b (x :: xs) = [] := by
          apply List.drop_eq_nil_of_le
          omega
        have h1 : 1 ≤ ((x :: xs).length + b - 1) / b := by
          rw [Nat.one_le_div_iff (by omega)]
          have : 1 ≤ (x :: xs).length := by simp
          omega
        have h2 : ((x :: xs).length + b - 1) / b < 2 := by
          rw [Nat.div_lt_iff_lt_mul (by omega)]
          omega
        have hrw : createBatchesAux b (f + 1) (x :: xs) = [(x :: xs).take b] := by
          rw [show createBatchesAux b (f + 1) (x :: xs) =
            ((x :: xs).take b :: createBatchesAux b f ((x :: xs).drop b)) from rfl,
            hdropnil, createBatchesAux_nil]
        rw [hrw, List.length_singleton]
        omega
      · have hstep : ((List.drop b (x :: xs)).length + b - 1) / b + 1 =
            ((x :: xs).length + b - 1) / b := by
          rw [List.length_drop]
          have h1 : (x :: xs).length - b + b - 1 = ((x :: xs).length - 1) := by omega
          have h2 : (x :: xs).length + b - 1 = ((x :: xs).length - 1) + b := by omega
          rw [h1, h2, Nat.add_div_right _ (by omega : 0 < b)]
        show ((x :: xs).take b :: createBatchesAux b f ((x :: xs).drop b)).length =
          ((x :: xs).length + b - 1) / b
        rw [List.length_cons, ih _ hdrop hb, hstep]

theorem createBatches_length {α : Type} (l : List α) (b : Nat) (hb : 1 ≤ b) :
    (createBatches l b).length = (l.length + b - 1) / b :=
  createBatchesAux_length b l.length l le_rfl hb

theorem createBatchesAux_ne_nil {α : Type} (b fuel : Nat) (l : List α)
    (hl : l.length ≤ fuel + 1) (hne : l ≠ []) :
    createBatchesAux b (fuel + 1) l ≠ [] := by
  cases l with
  | nil => exact absurd rfl hne
  | cons x xs => simp [createBatchesAux]

theorem createBatchesAux_dropLast {α : Type} (b : Nat) :
    ∀ (fuel : Nat) (l : List α), l.length ≤ fuel → 1 ≤ b →
      ∀ batch ∈ (createBatchesAux b fuel l).dropLast, batch.length = b := by
  intro fuel
  induction fuel with
  | zero =>
    intro l hl hb batch hm
    cases l with
    | nil => simp [createBatchesAux] at hm
    | cons x xs => simp at hl
  | succ f ih =>
    intro l hl hb batch hm
    cases l with
    | nil => simp [createBatchesAux] at hm
    | cons x xs =>
      have hdrop : (List.drop b (x :: xs)).length ≤ f := by
        simp only [List.length_drop, List.length_cons] at *
        omega
      rw [show createBatchesAux b (f + 1) (x :: xs) =
        ((x :: xs).take b :: createBatchesAux b f ((x :: xs).drop b)) from rfl] at hm
      by_cases hnil : List.drop b (x :: xs) = []
      · rw [hnil, createBatchesAux_nil] at hm
        simp at hm
      · cases f with
        | zero =>
          exfalso
          apply hnil
          apply List.eq_nil_of_length_eq_zero
          omega
        | succ f' =>
          rw [List.dropLast_cons_of_ne_nil
            (createBatchesAux_ne_nil b f' _ hdrop hnil)] at hm
          rcases List.mem_cons.mp hm with hm1 | hm2
          · subst hm1
            rw [List.length_take]
            have : b < (x :: xs).length := by
              by_contra hcon
              exact hnil (List.drop_eq_nil_of_le (by omega))
            omega
          · exact ih _ hdrop hb batch hm2

theorem createBatchesAux_getLast {α : Type} (b : Nat) :
    ∀ (fuel : Nat) (l : List α), l.length ≤ fuel → 1 ≤ b → l ≠ [] →
      (createBatchesAux b fuel l).getLast?.map List.length =
        some (if l.length % b = 0 then b else l.length % b) := by
  intro fuel
  induction fuel with
  | zero =>
    intro l hl hb hne
    cases l with
    | nil => exact absurd rfl hne
    | cons x xs => simp at hl
  | succ f ih =>
    intro l hl hb hne
    cases l with
    | nil => exact absurd rfl hne
    | cons x xs =>
      have hdrop : (List.drop b (x :: xs)).length ≤ f := by
        simp only [List.length_drop, List.length_cons] at *
        omega
      rw [show createBatchesAux b (f + 1) (x :: xs) =
        ((x :: xs).take b :: createBatchesAux b f ((x :: xs).drop b)) from rfl]
      by_cases hnil : List.drop b (x :: xs) = []
      · have hble : (x :: xs).length ≤ b := by
          by_contra hcon
          have := congrArg List.length hnil
          simp only [List.length_drop, List.length_nil] at this
          omega
        have hpos : 0 < (x :: xs).length := by simp
        rw [hnil, createBatchesAux_nil]
        rw [show ([(x :: xs).take b]).getLast? = some ((x :: xs).take b) from rfl]
        rw [show Option.map List.length (some ((x :: xs).take b)) =
          some ((x :: xs).take b).length from rfl]
        rw [List.length_take]
        rcases eq_or_lt_of_le hble with hEq | hLt
        · have hmodz : (x :: xs).length % b = 0 := by
            rw [hEq]
            exact Nat.mod_self b
          rw [if_pos hmodz, hEq, Nat.min_self]
        · have hmod : (x :: xs).length % b = (x :: xs).length := Nat.mod_eq_of_lt hLt
          rw [hmod, if_neg (by omega), Nat.min_eq_right (le_of_lt hLt)]
      · cases f with
        | zero =>
          exfalso
          apply hnil
          apply List.eq_nil_of_length_eq_zero
          omega
        | succ f' =>
          have hanil := createBatchesAux_ne_nil b f' _ hdrop hnil
          have hble : b < (x :: xs).length := by
            by_contra hcon
            exact hnil (List.drop_eq_nil_of_le (by omega))
          have hgl : (((x :: xs).take b :: createBatchesAux b (f' + 1) ((x :: xs).drop b)).getLast? =
              (createBatchesAux b (f' + 1) ((x :: xs).drop b)).getLast?) := by
            cases hcb : createBatchesAux b (f' + 1) ((x :: xs).drop b) with
            | nil => exact absurd hcb hanil
            | cons y ys => rw [List.getLast?_cons_cons]
          have hmod : (List.drop b (x :: xs)).length % b = (x :: xs).length % b := by
            rw [List.length_drop]
            exact (Nat.mod_eq_sub_mod (le_of_lt hble)).symm
          rw [hgl, ih _ hdrop hb hnil, hmod]

theorem createBatches_dropLast {α : Type} (l : List α) (b : Nat) (hb : 1 ≤ b) :
    ∀ batch ∈ (createBatches l b).dropLast, batch.length = b :=
  createBatchesAux_dropLast b l.length l le_rfl hb

theorem createBatches_getLast {α : Type} (l : List α) (b : Nat) (hb : 1 ≤ b)
    (hne : l ≠ []) :
    (createBatches l b).getLast?.map List.length =
      some (if l.length % b = 0 then b else l.length % b) :=
  createBatchesAux_getLast b l.length l le_rfl hb hne

/-- `(N + B - 1) / B` in natural-number arithmetic is `⌈N / B⌉`. -/
theorem nat_ceilDiv_eq (N B : Nat) (hB : 1 ≤ B) :
    (((N + B - 1) / B : Nat) : ℤ) = ⌈(N : ℚ) / (B : ℚ)⌉ := by
  have hmod : (N + B - 1) % B < B := Nat.mod_lt _ (by omega)
  have hdiv : B * ((N + B - 1) / B) + (N + B - 1) % B = N + B - 1 :=
    Nat.div_add_mod _ _
  have h1 : N ≤ B * ((N + B - 1) / B) := by omega
  have h2 : B * ((N + B - 1) / B) < N + B := by omega
  have hBQ : (0 : ℚ) < (B : ℚ) := by exact_mod_cast (by omega : 0 < B)
  have h1Q : (N : ℚ) ≤ (B : ℚ) * (((N + B - 1) / B : Nat) : ℚ) := by
    exact_mod_cast h1
  have h2Q : (B : ℚ) * (((N + B - 1) / B : Nat) : ℚ) < (N : ℚ) + (B : ℚ) := by
    exact_mod_cast h2
  symm
  rw [Int.ceil_eq_iff]
  simp only [Int.cast_natCast]
  constructor
  · rw [lt_div_iff₀ hBQ]
    nlinarith [h1Q, h2Q]
  · rw [div_le_iff₀ hBQ]
    nlinarith [h1Q, h2Q]

/-- **C4**: with `batchSize = B ≥ 1`, `createBatches` partitions the `N` queries
into `⌈N/B⌉` ordered batches whose concatenation is the original list; every
batch but the last has exactly `B` queries and the last has `N mod B` (or `B`
when `B` divides `N`).  `executeJob` folds over these batches front to back
(`runBatchLoop`), i.e. strictly sequentially. -/
theorem C4_batch_partition (l : List String) (B : Nat) (hB : 1 ≤ B) :
    (createBatches l B).flatten = l ∧
    ((createBatches l B).length : ℤ) = ⌈(l.length : ℚ) / (B : ℚ)⌉ ∧
    (∀ batch ∈ (createBatches l B).dropLast, batch.length = B) ∧
    (l ≠ [] → (createBatches l B).getLast?.map List.length =
      some (if l.length % B = 0 then B else l.length % B)) := by
  refine ⟨createBatches_flatten l B hB, ?_, createBatches_dropLast l B hB,
    createBatches_getLast l B hB⟩
  rw [createBatches_length l B hB]
  exact nat_ceilDiv_eq l.length B hB

/-- Witness for `C4_batch_partition` at 7 queries and batch size 3
(batch sizes `[3, 3, 1]`). -/
theorem C4_batch_partition_witness :
    (createBatches ["q1", "q2", "q3", "q4", "q5", "q6", "q7"] 3).flatten =
      ["q1", "q2", "q3", "q4", "q5", "q6", "q7"] ∧
    (createBatches ["q1", "q2", "q3", "q4", "q5", "q6", "q7"] 3).getLast?.map List.length =
      some 1 := by
  have h := C4_batch_partition ["q1", "q2", "q3", "q4", "q5", "q6", "q7"] 3 (by norm_num)
  refine ⟨h.1, ?_⟩
  have h4 := h.2.2.2 (by decide)
  simpa using h4

/-! ## Lemmas about the batch loop of `executeJob` -/

theorem applyBatchResults_map (env : QueryEnv) :
    ∀ (batch : List String) (j : PrecomputeJob),
      applyBatchResults j batch (batch.map (fun q => env q 0)) =
        { j with
          results := j.results ++ batch.filterMap (fun q => (env q 0).toOption)
          errors := j.errors ++ batch.filterMap (fun q =>
            match env q 0 with
            | .ok _ => none
            | .error reason => some (errorMessage q reason)) } := by
  intro batch
  induction batch with
  | nil => intro j; simp [applyBatchResults]
  | cons q qs ih =>
    intro j
    rw [List.map_cons]
    cases henv : env q 0 with
    | ok v =>
      rw [show applyBatchResults j (q :: qs) (Except.ok v :: qs.map (fun q => env q 0)) =
        applyBatchResults { j with results := j.results ++ [v] } qs
          (qs.map (fun q => env q 0)) from rfl]
      rw [ih]
      simp [List.filterMap_cons, henv, Except.toOption]
    | error reason =>
      rw [show applyBatchResults j (q :: qs)
          (Except.error reason :: qs.map (fun q => env q 0)) =
        applyBatchResults { j with errors := j.errors ++ [errorMessage q reason] } qs
          (qs.map (fun q => env q 0)) from rfl]
      rw [ih]
      simp [List.filterMap_cons, henv, Except.toOption]

theorem runBatch_spec (env : QueryEnv) (N : Nat) (p : Nat) (j : PrecomputeJob)
    (batch : List String) :
    runBatch env N (p, j) batch =
      (p + batch.length,
        { j with
          progress := (((p + batch.length : Nat) : ℚ) / (N : ℚ)) * 100
          results := j.results ++ batch.filterMap (fun q => (env q 0).toOption)
          errors := j.errors ++ batch.filterMap (fun q =>
            match env q 0 with
            | .ok _ => none
            | .error reason => some (errorMessage q reason)) }) := by
  show (p + batch.length,
      applyBatchResults { j with progress := _ } batch (batch.map (fun q => env q 0))) = _
  rw [applyBatchResults_map]

theorem foldl_runBatch_spec (env : QueryEnv) (N : Nat) :
    ∀ (batches : List (List String)) (p : Nat) (j : PrecomputeJob),
      batches.foldl (runBatch env N) (p, j) =
        (p + batches.flatten.length,
          { j with
            progress := if batches.isEmpty then j.progress
              else (((p + batches.flatten.length : Nat) : ℚ) / (N : ℚ)) * 100
            results := j.results ++ batches.flatten.filterMap (fun q => (env q 0).toOption)
            errors := j.errors ++ batches.flatten.filterMap (fun q =>
              match env q 0 with
              | .ok _ => none
              | .error reason => some (errorMessage q reason)) }) := by
  intro batches
  induction batches with
  | nil => intro p j; simp
  | cons b bs ih =>
    intro p j
    rw [List.foldl_cons, runBatch_spec, ih]
    cases bs with
    | nil => simp
    | cons b2 bs2 =>
      simp only [List.isEmpty_cons, List.flatten_cons, List.filterMap_append,
        List.length_append, List.append_assoc, Prod.mk.injEq]
      refine ⟨by omega, ?_⟩
      have harith : (p + b.length + (b2.length + bs2.flatten.length)) =
          (p + (b.length + (b2.length + bs2.flatten.length))) := by omega
      rw [harith]
      simp

/-- **C5**: within one batch, every query is dispatched and the batch is done
only when all outcomes have settled (`Promise.allSettled` yields
`batch.map (env · 0)`, index-aligned with the batch): `results` gains exactly
the fulfilled values, `errors` exactly one `Query "<query>": <reason>` entry per
rejected query, each attributed to the query at the same batch position, and no
failure removes or suppresses a sibling's outcome. -/
theorem C5_settle_all_index_attribution (env : QueryEnv) (N p : Nat)
    (j : PrecomputeJob) (batch : List String) :
    (runBatch env N (p, j) batch).2.results =
      j.results ++ batch.filterMap (fun q => (env q 0).toOption) ∧
    (runBatch env N (p, j) batch).2.errors =
      j.errors ++ batch.filterMap (fun q =>
        match env q 0 with
        | .ok _ => none
        | .error reason => some (errorMessage q reason)) := by
  rw [runBatch_spec]
  exact ⟨rfl, rfl⟩

theorem createBatches_ne_nil {α : Type} (l : List α) (b : Nat) (hne : l ≠ []) :
    createBatches l b ≠ [] := by
  cases l with
  | nil => exact absurd rfl hne
  | cons x xs => exact createBatchesAux_ne_nil b xs.length (x :: xs) (by simp) (by simp)

theorem flatten_take_length_mono {α : Type} (L : List (List α)) {k k' : Nat}
    (h : k ≤ k') :
    (L.take k).flatten.length ≤ (L.take k').flatten.length := by
  rw [show k' = k + (k' - k) by omega, List.take_add, List.flatten_append,
    List.length_append]
  omega

/-- **C6**: for a job with at least one query (and `batchSize ≥ 1`), the
`progress` value observed after each settled batch of the loop equals
`100 × (queriesProcessedSoFar / totalQueries)`; it is monotonically
non-decreasing along the loop, and is exactly `100` once the last initial
(pre-retry) batch has settled. -/
theorem C6_progress_formula_monotone (env : QueryEnv)
    (opts : BatchPrecomputeOptions) (job : PrecomputeJob)
    (hB : 1 ≤ opts.batchSize) (hne : job.queries ≠ []) (hp0 : job.progress = 0) :
    (∀ k, 1 ≤ k →
      (((createBatches job.queries opts.batchSize).take k).foldl
          (runBatch env job.queries.length) (0, job)).2.progress =
        100 * ((((createBatches job.queries opts.batchSize).take k).flatten.length : ℚ)
          / (job.queries.length : ℚ))) ∧
    (∀ k k', k ≤ k' →
      (((createBatches job.queries opts.batchSize).take k).foldl
          (runBatch env job.queries.length) (0, job)).2.progress ≤
      (((createBatches job.queries opts.batchSize).take k').foldl
          (runBatch env job.queries.length) (0, job)).2.progress) ∧
    (runBatchLoop env opts job).progress = 100 := by
  have hNpos : 0 < job.queries.length := List.length_pos.mpr hne
  have hNQ : (0 : ℚ) < (job.queries.length : ℚ) := by exact_mod_cast hNpos
  have hbnil : createBatches job.queries opts.batchSize ≠ [] :=
    createBatches_ne_nil job.queries opts.batchSize hne
  have hfork : ∀ k, 1 ≤ k →
      (((createBatches job.queries opts.batchSize).take k).foldl
          (runBatch env job.queries.length) (0, job)).2.progress =
        100 * ((((createBatches job.queries opts.batchSize).take k).flatten.length : ℚ)
          / (job.queries.length : ℚ)) := by
    intro k hk
    rw [foldl_runBatch_spec]
    have htne : (createBatches job.queries opts.batchSize).take k ≠ [] := by
      rw [Ne, List.take_eq_nil_iff]
      push_neg
      exact ⟨by omega, hbnil⟩
    rw [if_neg (by simpa [List.isEmpty_iff] using htne)]
    push_cast
    ring
  refine ⟨hfork, ?_, ?_⟩
  · intro k k' hkk
    rcases Nat.eq_zero_or_pos k with hk0 | hk1
    · subst hk0
      rw [show ((createBatches job.queries opts.batchSize).take 0) = [] from rfl]
      rw [show (([] : List (List String)).foldl
        (runBatch env job.queries.length) (0, job)) = (0, job) from rfl]
      rcases Nat.eq_zero_or_pos k' with hk0' | hk1'
      · subst hk0'
        simp
      · rw [hfork k' hk1', hp0]
        positivity
    · rw [hfork k hk1, hfork k' (le_trans hk1 hkk)]
      have hmono := flatten_take_length_mono
        (createBatches job.queries opts.batchSize) hkk
      have hcast : ((((createBatches job.queries opts.batchSize).take k).flatten.length : ℚ))
          ≤ ((((createBatches job.queries opts.batchSize).take k').flatten.length : ℚ)) := by
        exact_mod_cast hmono
      gcongr
  · show ((createBatches job.queries opts.batchSize).foldl
      (runBatch env job.queries.length) (0, job)).2.progress = 100
    rw [foldl_runBatch_spec,
      if_neg (by simpa [List.isEmpty_iff] using hbnil)]
    rw [createBatches_flatten job.queries opts.batchSize hB]
    rw [zero_add]
    rw [div_self (ne_of_gt hNQ)]
    norm_num

/-- Witness for `C6_progress_formula_monotone`: three queries, batch size 2;
after the loop the job's progress is exactly 100. -/
theorem C6_progress_formula_monotone_witness :
    (runBatchLoop (fun _ _ => Except.error "down")
      { batchSize := 2, delayBetweenBatches := 0, enableXAI := true,
        retryFailedQueries := false, maxRetries := 3 }
      { id := "job_w6", queries := ["a", "b", "c"], status := JobStatus.running,
        progress := 0, startTime := 0, endTime := none, results := [],
        errors := [] }).progress = 100 :=
  (C6_progress_formula_monotone (fun _ _ => Except.error "down")
    { batchSize := 2, delayBetweenBatches := 0, enableXAI := true,
      retryFailedQueries := false, maxRetries := 3 }
    { id := "job_w6", queries := ["a", "b", "c"], status := JobStatus.running,
      progress := 0, startTime := 0, endTime := none, results := [], errors := [] }
    (by norm_num) (by simp) rfl).2.2

end PrecomputeManager

/-! ## Lemmas about the JavaScript `Map` model -/

theorem mapGet_map_replace {β : Type} (k : String) (v : β) :
    ∀ m : List (String × β), m.any (fun p => p.1 = k) = true →
      mapGet (m.map (fun p => if p.1 = k then (k, v) else p)) k = some v := by
  intro m
  induction m with
  | nil => intro h; simp at h
  | cons a rest ih =>
    intro h
    by_cases hak : a.1 = k
    · simp [mapGet, hak]
    · have hrest : rest.any (fun p => p.1 = k) = true := by
        rw [List.any_cons] at h
        simpa [hak] using h
      have hskip : mapGet ((a :: rest).map (fun p => if p.1 = k then (k, v) else p)) k =
          mapGet (rest.map (fun p => if p.1 = k then (k, v) else p)) k := by
        simp [mapGet, hak]
      rw [hskip]
      exact ih hrest

theorem mapGet_append_not_present {β : Type} (k : String) (v : β) :
    ∀ m : List (String × β), m.any (fun p => p.1 = k) = false →
      mapGet (m ++ [(k, v)]) k = some v := by
  intro m
  induction m with
  | nil => intro h; simp [mapGet]
  | cons a rest ih =>
    intro h
    rw [List.any_cons, Bool.or_eq_false_iff] at h
    obtain ⟨h2a, h2b⟩ := h
    have hak : ¬ (a.1 = k) := by simpa using h2a
    rw [List.cons_append]
    have hskip : mapGet (a :: (rest ++ [(k, v)])) k = mapGet (rest ++ [(k, v)]) k := by
      simp [mapGet, hak]
    rw [hskip]
    exact ih h2b

theorem mapGet_mapSet_self {β : Type} (m : List (String × β)) (k : String) (v : β) :
    mapGet (mapSet m k v) k = some v := by
  unfold mapSet
  by_cases hany : m.any (fun p => p.1 = k) = true
  · rw [if_pos hany]
    exact mapGet_map_replace k v m hany
  · rw [if_neg hany]
    exact mapGet_append_not_present k v m (Bool.eq_false_iff.mpr hany)

theorem mapGet_map_replace_ne {β : Type} (k k' : String) (v : β) (h : k' ≠ k) :
    ∀ m : List (String × β),
      mapGet (m.map (fun p => if p.1 = k then (k, v) else p)) k' = mapGet m k' := by
  intro m
  induction m with
  | nil => rfl
  | cons a rest ih =>
    by_cases hak : a.1 = k
    · have hk' : ¬ ((k : String) = k') := fun hh => h hh.symm
      have ha' : ¬ (a.1 = k') := by rw [hak]; exact hk'
      simp only [List.map_cons, if_pos hak]
      have hl : mapGet ((k, v) :: rest.map (fun p => if p.1 = k then (k, v) else p)) k' =
          mapGet (rest.map (fun p => if p.1 = k then (k, v) else p)) k' := by
        simp [mapGet, hk']
      have hr : mapGet (a :: rest) k' = mapGet rest k' := by
        simp [mapGet, ha']
      rw [hl, hr]
      exact ih
    · by_cases hak' : a.1 = k'
      · have hfa : (if a.1 = k then (k, v) else a) = a := if_neg hak
        rw [List.map_cons, hfa]
        have hl : mapGet (a :: List.map (fun p => if p.1 = k then (k, v) else p) rest) k' =
            some a.2 := by
          simp [mapGet, hak']
        have hr : mapGet (a :: rest) k' = some a.2 := by
          simp [mapGet, hak']
        rw [hl, hr]
      · have hl : mapGet ((a :: rest).map (fun p => if p.1 = k then (k, v) else p)) k' =
            mapGet (rest.map (fun p => if p.1 = k then (k, v) else p)) k' := by
          simp [mapGet, hak, hak']
        have hr : mapGet (a :: rest) k' = mapGet rest k' := by
          simp [mapGet, hak']
        rw [hl, hr]
        exact ih

theorem mapGet_append_single_ne {β : Type} (k k' : String) (v : β) (h : k' ≠ k) :
    ∀ m : List (String × β), mapGet (m ++ [(k, v)]) k' = mapGet m k' := by
  intro m
  induction m with
  | nil =>
    have : ¬ ((k : String) = k') := fun hh => h hh.symm
    simp [mapGet, this]
  | cons a rest ih =>
    by_cases hak' : a.1 = k'
    · simp [mapGet, hak']
    · rw [List.cons_append]
      have hl : mapGet (a :: (rest ++ [(k, v)])) k' = mapGet (rest ++ [(k, v)]) k' := by
        simp [mapGet, hak']
      have hr : mapGet (a :: rest) k' = mapGet rest k' := by
        simp [mapGet, hak']
      rw [hl, hr]
      exact ih

theorem mapGet_mapSet_ne {β : Type} (m : List (String × β)) (k k' : String) (v : β)
    (h : k' ≠ k) :
    mapGet (mapSet m k v) k' = mapGet m k' := by
  unfold mapSet
  by_cases hany : m.any (fun p => p.1 = k) = true
  · rw [if_pos hany]
    exact mapGet_map_replace_ne k k' v h m
  · rw [if_neg hany]
    exact mapGet_append_single_ne k k' v h m

namespace PrecomputeManager

theorem executeJobRun_empty (env : QueryEnv) (opts : BatchPrecomputeOptions)
    (t2 : Int) (jobR : PrecomputeJob) (hq : jobR.queries = [])
    (he : jobR.errors = []) :
    executeJobRun env opts t2 jobR =
      { jobR with status := JobStatus.completed, endTime := some t2 } := by
  have hbatches : createBatches jobR.queries opts.batchSize = [] := by
    rw [hq]
    exact createBatchesAux_nil _ _
  unfold executeJobRun runBatchLoop
  rw [hbatches]
  simp [he]

/-- **C10**: executing a job whose query list is empty terminates with
`status = completed`, empty `results` and `errors`, and `progress = 0`: there
are zero batches, so the assignment to `progress` inside the batch loop never
runs and the job completes without `progress` ever being set to 100. -/
theorem C10_empty_job_completed_progress_zero (freshId : String)
    (t0 t1 t2 : Int) (env : QueryEnv) (opts : BatchPrecomputeOptions) :
    (executeJob (createJob ⟨[], false⟩ freshId t0 []).1 freshId env opts t1 t2).map
      (fun p => (p.2.status, p.2.progress, p.2.results, p.2.errors)) =
    Except.ok (JobStatus.completed, (0 : ℚ), ([] : List PrecomputedResponse),
      ([] : List String)) := by
  have hjobs : (createJob ⟨[], false⟩ freshId t0 []).1 =
      ⟨mapSet [] freshId
        { id := freshId, queries := [], status := JobStatus.pending, progress := 0,
          startTime := t0, endTime := none, results := [], errors := [] }, false⟩ := rfl
  rw [hjobs]
  have hstart : executeJobStart
      (⟨mapSet [] freshId
        { id := freshId, queries := [], status := JobStatus.pending, progress := 0,
          startTime := t0, endTime := none, results := [], errors := [] }, false⟩ :
        ManagerState) freshId t1 =
      Except.ok
        (⟨mapSet (mapSet [] freshId
          { id := freshId, queries := [], status := JobStatus.pending, progress := 0,
            startTime := t0, endTime := none, results := [], errors := [] }) freshId
          { id := freshId, queries := [], status := JobStatus.running, progress := 0,
            startTime := t1, endTime := none, results := [], errors := [] }, true⟩,
        { id := freshId, queries := [], status := JobStatus.running, progress := 0,
          startTime := t1, endTime := none, results := [], errors := [] }) := by
    unfold executeJobStart
    rw [mapGet_mapSet_self]
    rfl
  unfold executeJob
  rw [hstart]
  simp only [Except.map]
  rw [executeJobRun_empty env opts t2 _ rfl rfl]

end PrecomputeManager

/-! ## The PrecomputeService: confidence formula and cache behaviour -/

theorem round_mono_rat {x y : ℚ} (h : x ≤ y) : round x ≤ round y := by
  rw [round_eq, round_eq]
  exact Int.floor_mono (by linarith)

namespace PrecomputeService

/-- **C9**: the synthesized confidence equals
`min(95, 20 + min(50, responseLength/500×50) + min(30, Σ|importance|×100))`
rounded to an integer, and always lies in the interval `[0, 95]`. -/
theorem C9_confidence_formula_and_bounds (query response : String)
    (shapData : List (String × ℚ)) :
    calculateConfidence query response shapData =
      specConfidenceFormula response shapData ∧
    0 ≤ calculateConfidence query response shapData ∧
    calculateConfidence query response shapData ≤ 95 := by
  have hlen : (0 : ℚ) ≤ min ((response.length : ℚ) / 500 * 50) 50 := by
    apply le_min
    · positivity
    · norm_num
  have hshapsum : (0 : ℚ) ≤ (shapData.map (fun p => |p.2|)).sum := by
    apply List.sum_nonneg
    intro x hx
    rcases List.mem_map.mp hx with ⟨p, _, hp⟩
    rw [← hp]
    exact abs_nonneg _
  have hshap : (0 : ℚ) ≤ min ((shapData.map (fun p => |p.2|)).sum * 100) 30 := by
    apply le_min
    · positivity
    · norm_num
  have hcc : calculateConfidence query response shapData =
      round (min (20 + min ((response.length : ℚ) / 500 * 50) 50 +
        min ((shapData.map (fun p => |p.2|)).sum * 100) 30) 95) := rfl
  have hb : (20 : ℚ) ≤ min (20 + min ((response.length : ℚ) / 500 * 50) 50 +
      min ((shapData.map (fun p => |p.2|)).sum * 100) 30) 95 := by
    apply le_min
    · linarith
    · norm_num
  refine ⟨?_, ?_, ?_⟩
  · rw [hcc]
    simp only [specConfidenceFormula]
    rw [min_comm (95 : ℚ), min_comm (50 : ℚ), min_comm (30 : ℚ)]
  · rw [hcc, round_eq]
    apply Int.floor_nonneg.mpr
    linarith
  · rw [hcc, round_eq, Int.floor_le_iff]
    have h95 : min (20 + min ((response.length : ℚ) / 500 * 50) 50 +
        min ((shapData.map (fun p => |p.2|)).sum * 100) 30) 95 ≤ 95 :=
      min_le_right _ _
    push_cast
    linarith

theorem loadCache_some (config : PrecomputeConfig) (rs : List PrecomputedResponse)
    (now : Int) :
    loadCache config (some rs) now = rs.foldl (fun cache response =>
      if now - response.timestamp < config.cacheExpiry * 60 * 60 * 1000 then
        mapSet cache response.queryHash response
      else cache) [] := rfl

theorem loadCache_foldl_fresh (config : PrecomputeConfig) (now : Int) (k : String)
    (e : PrecomputedResponse) (hk : e.queryHash = k)
    (hfresh : now - e.timestamp < config.cacheExpiry * 60 * 60 * 1000) :
    ∀ (rs : List PrecomputedResponse) (cache0 : List (String × PrecomputedResponse)),
      (∀ r ∈ rs, r.queryHash = k → r = e) →
      (e ∈ rs ∨ mapGet cache0 k = some e) →
      mapGet (rs.foldl (fun cache response =>
        if now - response.timestamp < config.cacheExpiry * 60 * 60 * 1000 then
          mapSet cache response.queryHash response
        else cache) cache0) k = some e := by
  intro rs
  induction rs with
  | nil =>
    intro cache0 huniq hsrc
    rcases hsrc with h | h
    · simp at h
    · exact h
  | cons r rest ih =>
    intro cache0 huniq hsrc
    rw [List.foldl_cons]
    by_cases hrk : r.queryHash = k
    · have hre : r = e := huniq r (by simp) hrk
      subst hre
      rw [if_pos hfresh, hk]
      apply ih
      · intro x hx hxk
        exact huniq x (by simp [hx]) hxk
      · right
        exact mapGet_mapSet_self cache0 k r
    · have hget : mapGet (if now - r.timestamp < config.cacheExpiry * 60 * 60 * 1000 then
          mapSet cache0 r.queryHash r else cache0) k = mapGet cache0 k := by
        split
        · exact mapGet_mapSet_ne cache0 r.queryHash k r (fun hh => hrk hh.symm)
        · rfl
      apply ih
      · intro x hx hxk
        exact huniq x (by simp [hx]) hxk
      · rcases hsrc with h | h
        · rcases List.mem_cons.mp h with h1 | h2
          · exact absurd (h1 ▸ hk) hrk
          · exact Or.inl h2
        · right
          rw [hget]
          exact h

theorem loadCache_foldl_expired (config : PrecomputeConfig) (now : Int) (k : String) :
    ∀ (rs : List PrecomputedResponse) (cache0 : List (String × PrecomputedResponse)),
      (∀ r ∈ rs, r.queryHash = k →
        config.cacheExpiry * 60 * 60 * 1000 ≤ now - r.timestamp) →
      mapGet (rs.foldl (fun cache response =>
        if now - response.timestamp < config.cacheExpiry * 60 * 60 * 1000 then
          mapSet cache response.queryHash response
        else cache) cache0) k = mapGet cache0 k := by
  intro rs
  induction rs with
  | nil =>
    intro cache0 hexp
    rfl
  | cons r rest ih =>
    intro cache0 hexp
    rw [List.foldl_cons]
    have hstep : mapGet (if now - r.timestamp < config.cacheExpiry * 60 * 60 * 1000 then
        mapSet cache0 r.queryHash r else cache0) k = mapGet cache0 k := by
      by_cases hrk : r.queryHash = k
      · rw [if_neg (not_lt.mpr (hexp r (by simp) hrk))]
      · split
        · exact mapGet_mapSet_ne cache0 r.queryHash k r (fun hh => hrk hh.symm)
        · rfl
    rw [show (rest.foldl (fun cache response =>
      if now - response.timestamp < config.cacheExpiry * 60 * 60 * 1000 then
        mapSet cache response.queryHash response
      else cache) (if now - r.timestamp < config.cacheExpiry * 60 * 60 * 1000 then
        mapSet cache0 r.queryHash r else cache0)) = rest.foldl _ _ from rfl]
    rw [ih _ (fun x hx hxk => hexp x (by simp [hx]) hxk), hstep]

/-- **C7**: after `loadCache` reads the persisted store at time `now`, an entry
within the TTL (`now − createdAt < cacheExpiry` hours) is returned by
`getCachedResponse` for its query — provided it is the sole stored record under
its hash and that hash is the query's hash; and when every stored record under
a hash is older than the TTL, it is dropped at load time: lookup of that hash
returns nothing. -/
theorem C7_ttl_store_lookup (sha256Hex : String → String)
    (config : PrecomputeConfig) (rs : List PrecomputedResponse) (now : Int)
    (e : PrecomputedResponse) (query : String)
    (hq : e.queryHash = generateQueryHash sha256Hex query) :
    (e ∈ rs →
      (∀ r ∈ rs, r.queryHash = e.queryHash → r = e) →
      now - e.timestamp < config.cacheExpiry * 60 * 60 * 1000 →
      getCachedResponse sha256Hex (loadCache config (some rs) now) query = some e) ∧
    ((∀ r ∈ rs, r.queryHash = e.queryHash →
        config.cacheExpiry * 60 * 60 * 1000 ≤ now - r.timestamp) →
      getCachedResponse sha256Hex (loadCache config (some rs) now) query = none) := by
  constructor
  · intro hmem huniq hfresh
    show mapGet (loadCache config (some rs) now) (generateQueryHash sha256Hex query) = some e
    rw [loadCache_some]
    exact loadCache_foldl_fresh config now (generateQueryHash sha256Hex query) e hq
      hfresh rs [] (fun r hr hrk => huniq r hr (by rwa [hq])) (Or.inl hmem)
  · intro hexp
    show mapGet (loadCache config (some rs) now) (generateQueryHash sha256Hex query) = none
    rw [loadCache_some]
    rw [loadCache_foldl_expired config now (generateQueryHash sha256Hex query) rs []
      (fun r hr hrk => hexp r hr (by rwa [hq]))]
    rfl

/-- Witness for `C7_ttl_store_lookup`: with a 1-hour TTL at `now = 1000`, a
fresh store entry under hash `"q"` is returned for query `"q"`, while an entry
stored exactly one hour ago under hash `"old"` is dropped at load time. -/
theorem C7_ttl_store_lookup_witness :
    getCachedResponse (fun s => s)
      (loadCache sampleConfig
        (some [sampleResponse "q" 500, sampleResponse "old" (-3599000)]) 1000) "q" =
      some (sampleResponse "q" 500) ∧
    getCachedResponse (fun s => s)
      (loadCache sampleConfig
        (some [sampleResponse "q" 500, sampleResponse "old" (-3599000)]) 1000) "old" =
      none := by
  constructor
  · exact (C7_ttl_store_lookup (fun s => s) sampleConfig
      [sampleResponse "q" 500, sampleResponse "old" (-3599000)] 1000
      (sampleResponse "q" 500) "q" (by decide)).1 (by decide) (by decide) (by decide)
  · exact (C7_ttl_store_lookup (fun s => s) sampleConfig
      [sampleResponse "q" 500, sampleResponse "old" (-3599000)] 1000
      (sampleResponse "old" (-3599000)) "old" (by decide)).2 (by decide)

/-- **C8**: `precomputeResponse` (1) returns a cache hit immediately, with no
upstream call and no mutation of the in-memory cache or the persisted copy;
(2) on a cache miss, a failing upstream call propagates as
`Precompute failed: <message>` with the state unchanged — no cache write; and
(3) likewise for a failing explanation synthesis when XAI is enabled. -/
theorem C8_cache_hit_and_no_partial_write (sha256Hex : String → String)
    (upstream : String → Except String String)
    (synth : String → String → Except String XAIExplanation)
    (config : PrecomputeConfig) (st : ServiceState) (query : String)
    (uuid : Nat) (now openaiTime xaiTime : Int) :
    (∀ c, getCachedResponse sha256Hex st.cache query = some c →
      precomputeResponse sha256Hex upstream synth config st query uuid now
          openaiTime xaiTime =
        { outcome := Except.ok c, state := st, upstreamCalled := false }) ∧
    (getCachedResponse sha256Hex st.cache query = none →
      ∀ e, upstream query = Except.error e →
        precomputeResponse sha256Hex upstream synth config st query uuid now
            openaiTime xaiTime =
          { outcome := Except.error ("Precompute failed: " ++ e), state := st,
            upstreamCalled := true }) ∧
    (getCachedResponse sha256Hex st.cache query = none →
      config.enableXAI = true →
      ∀ ans e, upstream query = Except.ok ans → synth query ans = Except.error e →
        precomputeResponse sha256Hex upstream synth config st query uuid now
            openaiTime xaiTime =
          { outcome := Except.error ("Precompute failed: " ++ e), state := st,
            upstreamCalled := true }) := by
  refine ⟨?_, ?_, ?_⟩
  · intro c hc
    unfold precomputeResponse
    rw [hc]
  · intro hc e he
    unfold precomputeResponse
    rw [hc, he]
  · intro hc hxai ans e hans hsynth
    unfold precomputeResponse
    rw [hc, hans, hxai]
    simp only [if_true]
    rw [hsynth]

/-- Witness for `C8_cache_hit_and_no_partial_write`: a hit returns the cached
entry without calling upstream; an upstream failure and a synthesis failure
each propagate with the service state untouched. -/
theorem C8_cache_hit_and_no_partial_write_witness :
    precomputeResponse (fun s => s) (fun _ => Except.error "http 500")
      (fun _ _ => Except.ok { response := "a", confidence := 75 })
      sampleConfig ⟨[("q", sampleResponse "q" 500)], none⟩ "q" 0 0 0 0 =
      { outcome := Except.ok (sampleResponse "q" 500),
        state := ⟨[("q", sampleResponse "q" 500)], none⟩, upstreamCalled := false } ∧
    precomputeResponse (fun s => s) (fun _ => Except.error "http 500")
      (fun _ _ => Except.ok { response := "a", confidence := 75 })
      sampleConfig ⟨[], none⟩ "q" 0 0 0 0 =
      { outcome := Except.error "Precompute failed: http 500",
        state := ⟨[], none⟩, upstreamCalled := true } ∧
    precomputeResponse (fun s => s) (fun _ => Except.ok "answer")
      (fun _ _ => Except.error "synthesis broke")
      sampleConfig ⟨[], none⟩ "q" 0 0 0 0 =
      { outcome := Except.error "Precompute failed: synthesis broke",
        state := ⟨[], none⟩, upstreamCalled := true } := by
  refine ⟨?_, ?_, ?_⟩
  · exact (C8_cache_hit_and_no_partial_write (fun s => s)
      (fun _ => Except.error "http 500")
      (fun _ _ => Except.ok { response := "a", confidence := 75 })
      sampleConfig ⟨[("q", sampleResponse "q" 500)], none⟩ "q" 0 0 0 0).1
      (sampleResponse "q" 500) (by decide)
  · exact (C8_cache_hit_and_no_partial_write (fun s => s)
      (fun _ => Except.error "http 500")
      (fun _ _ => Except.ok { response := "a", confidence := 75 })
      sampleConfig ⟨[], none⟩ "q" 0 0 0 0).2.1 (by decide) "http 500" rfl
  · exact (C8_cache_hit_and_no_partial_write (fun s => s)
      (fun _ => Except.ok "answer")
      (fun _ _ => Except.error "synthesis broke")
      sampleConfig ⟨[], none⟩ "q" 0 0 0 0).2.2 (by decide) rfl
      "answer" "synthesis broke" rfl rfl

end PrecomputeService

/-! ## Job lifecycle: cancellation and single-flight admission -/

namespace PrecomputeManager

theorem executeJobStart_ok (st : ManagerState) (jobId : String) (startT : Int)
    (job : PrecomputeJob) (hj : mapGet st.jobs jobId = some job)
    (hp : st.isProcessing = false) :
    executeJobStart st jobId startT = Except.ok
      (⟨mapSet st.jobs jobId { job with status := JobStatus.running, startTime := startT },
        true⟩,
       { job with status := JobStatus.running, startTime := startT }) := by
  unfold executeJobStart
  rw [hj, hp]
  rfl

theorem executeJob_conflict (st : ManagerState) (jobId : String) (env : QueryEnv)
    (opts : BatchPrecomputeOptions) (startT endT : Int) (job : PrecomputeJob)
    (hj : mapGet st.jobs jobId = some job) (hp : st.isProcessing = true) :
    executeJob st jobId env opts startT endT =
      Except.error "Another job is currently processing" := by
  unfold executeJob executeJobStart
  rw [hj, hp]
  rfl

/-- **C1** (the code violates the claim): `cancelJob` flips the running job to
the terminal `failed` state, stamps `endTime` and records the cancellation
marker — but the suspended `executeJob` loop never re-checks `job.status`
(PrecomputeManager.ts:83-128).  When its awaited batch settles, the loop keeps
appending the in-flight calls' results to the now-terminal job, advances
`progress`, and finally overwrites `status` with `completed` and `endTime` with
a later stamp.  Concrete run: job `"A"` with queries `["q1","q2"]`, batch size
1, every call fulfilled, cancellation during the first batch's await. -/
theorem C1_terminal_discard_violated_by_code :
    (cancelJob c1mid "A" 20).1 = true ∧
    (mapGet c1cancelled.jobs "A").map
      (fun j => (j.status, j.results.length, j.errors, j.endTime)) =
      some (JobStatus.failed, 0, ["Job cancelled by user"], some 20) ∧
    (mapGet c1final.jobs "A").map
      (fun j => (j.status, j.results.length, j.errors, j.endTime)) =
      some (JobStatus.completed, 2, ["Job cancelled by user"], some 30) := by
  refine ⟨by decide, by decide, by decide⟩

/-- **C2** (amended: restricted to executions in which `cancelJob` is not
invoked).  While `executeJob` of job `A` is anywhere between admission and
completion — modelled as every suspension point `k` of its batch loop — the
orchestrator's single exclusive flag is held, so `executeJob` on any other
existing job id throws the conflict error; and once `A`'s run has returned
(terminal state reached, flag released by `finally`), `executeJob` on another
existing id is admitted successfully. -/
theorem C2_single_flight_cancel_free (st : ManagerState) (A B : String)
    (env env2 : QueryEnv) (opts opts2 : BatchPrecomputeOptions)
    (startT startT2 endT endT2 : Int) (k : Nat) (hAB : B ≠ A)
    (jobA jobB : PrecomputeJob) (hA : mapGet st.jobs A = some jobA)
    (hB : mapGet st.jobs B = some jobB) (hquiet : st.isProcessing = false) :
    executeJob (duringExecution st A env opts startT k) B env2 opts2 startT2 endT2 =
      Except.error "Another job is currently processing" ∧
    (∀ stF jobF, executeJob st A env opts startT endT = Except.ok (stF, jobF) →
      (executeJob stF B env2 opts2 startT2 endT2).isOk = true) := by
  have hstart := executeJobStart_ok st A startT jobA hA hquiet
  constructor
  · have hmidp : (duringExecution st A env opts startT k).isProcessing = true := by
      unfold duringExecution
      rw [hstart]
    have hmidB : mapGet (duringExecution st A env opts startT k).jobs B = some jobB := by
      unfold duringExecution
      rw [hstart]
      show mapGet (mapSet (mapSet st.jobs A _) A _) B = some jobB
      rw [mapGet_mapSet_ne _ _ _ _ hAB, mapGet_mapSet_ne _ _ _ _ hAB, hB]
    exact executeJob_conflict _ B env2 opts2 startT2 endT2 jobB hmidB hmidp
  · intro stF jobF hrun
    have hexec : executeJob st A env opts startT endT =
        Except.ok
          (⟨mapSet (mapSet st.jobs A
              { jobA with status := JobStatus.running, startTime := startT }) A
              (executeJobRun env opts endT
                { jobA with status := JobStatus.running, startTime := startT }),
            false⟩,
           executeJobRun env opts endT
             { jobA with status := JobStatus.running, startTime := startT }) := by
      unfold executeJob
      rw [hstart]
      rfl
    rw [hexec] at hrun
    have hpair := Except.ok.inj hrun
    have hst : stF =
        ⟨mapSet (mapSet st.jobs A
            { jobA with status := JobStatus.running, startTime := startT }) A
            (executeJobRun env opts endT
              { jobA with status := JobStatus.running, startTime := startT }),
          false⟩ :=
      (congrArg Prod.fst hpair).symm
    subst hst
    have hBF : mapGet (mapSet (mapSet st.jobs A
        { jobA with status := JobStatus.running, startTime := startT }) A
        (executeJobRun env opts endT
          { jobA with status := JobStatus.running, startTime := startT })) B =
        some jobB := by
      rw [mapGet_mapSet_ne _ _ _ _ hAB, mapGet_mapSet_ne _ _ _ _ hAB, hB]
    have hstart2 := executeJobStart_ok
      (⟨mapSet (mapSet st.jobs A
          { jobA with status := JobStatus.running, startTime := startT }) A
          (executeJobRun env opts endT
            { jobA with status := JobStatus.running, startTime := startT }),
        false⟩ : ManagerState) B startT2 jobB hBF rfl
    unfold executeJob
    rw [hstart2]
    rfl

/-- Witness for `C2_single_flight_cancel_free`: with pending jobs `"A"`, `"B"`
and `"C"`, starting `"B"` while `"A"` is suspended awaiting its first batch
throws the conflict error. -/
theorem C2_single_flight_cancel_free_witness :
    executeJob (duringExecution c2state0 "A" envAllOk sampleOpts 10 0) "B"
      envAllOk sampleOpts 30 40 =
      Except.error "Another job is currently processing" :=
  (C2_single_flight_cancel_free c2state0 "A" "B" envAllOk envAllOk
    sampleOpts sampleOpts 10 30 40 50 0 (by decide)
    { id := "A", queries := ["qa"], status := JobStatus.pending, progress := 0,
      startTime := 0, endTime := none, results := [], errors := [] }
    { id := "B", queries := ["qb"], status := JobStatus.pending, progress := 0,
      startTime := 0, endTime := none, results := [], errors := [] }
    rfl rfl rfl).1

/-- Counterexample to **C2** as stated universally over executions of the
source: after `cancelJob` releases the single-flight flag mid-run, the
cancelled job's suspended loop eventually reaches its `finally` clause and
clears `isProcessing` a second time — even though job `"B"` now owns it.  In
the trace `c2afterAfin`, job `"B"` is still `running`, yet `executeJob "C"` is
admitted instead of throwing `JobConflictError`: two jobs run system-wide. -/
theorem C2_single_flight_counterexample :
    (mapGet c2afterAfin.jobs "B").map (fun j => j.status) = some JobStatus.running ∧
    c2afterAfin.isProcessing = false ∧
    (executeJob c2afterAfin "C" envAllOk sampleOpts 50 60).isOk = true := by
  refine ⟨by decide, by decide, by decide⟩

end PrecomputeManager

/-! ## String machinery for the retry pass -/

theorem splitOnChar_ne_nil (sep : Char) : ∀ l : List Char, splitOnChar sep l ≠ [] := by
  intro l
  cases l with
  | nil => simp [splitOnChar]
  | cons c cs =>
    unfold splitOnChar
    cases splitOnChar sep cs with
    | nil => simp
    | cons s ss =>
      by_cases hc : c = sep <;> simp [hc]

theorem splitOnChar_append_sep (sep : Char) :
    ∀ a b : List Char, (∀ c ∈ a, c ≠ sep) →
      splitOnChar sep (a ++ sep :: b) = a :: splitOnChar sep b := by
  intro a
  induction a with
  | nil =>
    intro b hsep
    show splitOnChar sep (sep :: b) = [] :: splitOnChar sep b
    rw [show splitOnChar sep (sep :: b) =
      (match splitOnChar sep b with
       | [] => [[]]
       | s :: ss => if sep = sep then [] :: s :: ss else (sep :: s) :: ss) from rfl]
    cases hsb : splitOnChar sep b with
    | nil => exact absurd hsb (splitOnChar_ne_nil sep b)
    | cons s ss => simp
  | cons c a' ih =>
    intro b hsep
    have hc : c ≠ sep := hsep c (by simp)
    show splitOnChar sep (c :: (a' ++ sep :: b)) = (c :: a') :: splitOnChar sep b
    rw [show splitOnChar sep (c :: (a' ++ sep :: b)) =
      (match splitOnChar sep (a' ++ sep :: b) with
       | [] => [[]]
       | s :: ss => if c = sep then [] :: s :: ss else (c :: s) :: ss) from rfl]
    rw [ih b (fun x hx => hsep x (by simp [hx]))]
    simp [hc]

theorem errorMessage_data (q r : String) :
    (errorMessage q r).data =
      "Query ".data ++ '"' :: (q.data ++ '"' :: (": ".data ++ r.data)) := by
  show ((("Query \"" ++ q) ++ "\": ") ++ r).data = _
  rw [String.data_append, String.data_append, String.data_append]
  rw [show ("Query \"").data = "Query ".data ++ ['"'] from by decide]
  rw [show ("\": ").data = '"' :: (": ").data from by decide]
  simp [List.append_assoc]

theorem extractQuery_errorMessage (q r : String) (hq : '"' ∉ q.data) :
    extractQuery (errorMessage q r) = some q := by
  unfold extractQuery
  rw [errorMessage_data]
  rw [splitOnChar_append_sep '"' "Query ".data _ (by decide)]
  rw [splitOnChar_append_sep '"' q.data _ (fun c hc hcq => hq (hcq ▸ hc))]

theorem includesStr_errorMessage_self (q r : String) :
    includesStr (errorMessage q r) q = true := by
  unfold includesStr
  rw [decide_eq_true_eq]
  rw [errorMessage_data]
  exact ⟨"Query ".data ++ ['"'], '"' :: (": ".data ++ r.data), by simp⟩

theorem errorMessage_inj (q q' r r' : String) (hq : '"' ∉ q.data)
    (hq' : '"' ∉ q'.data) (h : errorMessage q' r' = errorMessage q r) : q' = q := by
  have h1 := extractQuery_errorMessage q r hq
  have h2 := extractQuery_errorMessage q' r' hq'
  rw [h] at h2
  rw [h1] at h2
  exact (Option.some.inj h2).symm

/-! ## The retry pass of `executeJob` -/

namespace PrecomputeManager

theorem retryRound_foldl_spec (env : QueryEnv) (attempt : Nat) :
    ∀ (fqs rem0 : List String) (job : PrecomputeJob),
      fqs.foldl (retryStep env attempt) (rem0, job) =
      (rem0 ++ fqs.filter (fun q => (env q attempt).isOk = false),
       { job with
         results := job.results ++ fqs.filterMap (fun q => (env q attempt).toOption)
         errors := job.errors.filter (fun e => fqs.all (fun q =>
           match env q attempt with
           | .ok _ => !(includesStr e q)
           | .error _ => true)) }) := by
  intro fqs
  induction fqs with
  | nil =>
    intro rem0 job
    simp
  | cons q rest ih =>
    intro rem0 job
    rw [List.foldl_cons]
    cases hq : env q attempt with
    | ok resp =>
      have hstep : retryStep env attempt (rem0, job) q =
          (rem0, { job with
            results := job.results ++ [resp]
            errors := job.errors.filter (fun e => !(includesStr e q)) }) := by
        unfold retryStep
        rw [hq]
      rw [hstep, ih]
      have herr : ((job.errors.filter (fun e => !(includesStr e q))).filter
          (fun e => rest.all (fun q' =>
            match env q' attempt with
            | Except.ok _ => !(includesStr e q')
            | Except.error _ => true))) =
          job.errors.filter (fun e => (q :: rest).all (fun q' =>
            match env q' attempt with
            | Except.ok _ => !(includesStr e q')
            | Except.error _ => true)) := by
        rw [List.filter_filter]
        apply List.filter_congr
        intro e he
        simp [List.all_cons, hq, Bool.and_comm]
      simp only [Prod.mk.injEq]
      refine ⟨?_, ?_⟩
      · rw [List.filter_cons,
          show (decide ((env q attempt).isOk = false)) = false from by rw [hq]; rfl]
        simp
      · rw [herr]
        simp [List.filterMap_cons, hq, Except.toOption]
    | error r =>
      have hstep : retryStep env attempt (rem0, job) q = (rem0 ++ [q], job) := by
        unfold retryStep
        rw [hq]
      rw [hstep, ih]
      have herr : (job.errors.filter (fun e => rest.all (fun q' =>
            match env q' attempt with
            | Except.ok _ => !(includesStr e q')
            | Except.error _ => true))) =
          job.errors.filter (fun e => (q :: rest).all (fun q' =>
            match env q' attempt with
            | Except.ok _ => !(includesStr e q')
            | Except.error _ => true)) := by
        apply List.filter_congr
        intro e he
        simp [List.all_cons, hq]
      simp only [Prod.mk.injEq]
      refine ⟨?_, ?_⟩
      · rw [List.filter_cons,
          show (decide ((env q attempt).isOk = false)) = true from by rw [hq]; rfl]
        simp
      · rw [herr]
        simp [List.filterMap_cons, hq, Except.toOption]

theorem countP_pushes (env : QueryEnv) (a : Nat) (q : String)
    (horig : ∀ q' r, env q' a = Except.ok r → r.originalQuery = q') :
    ∀ fqs : List String,
      ((fqs.filterMap (fun q' => (env q' a).toOption)).countP
        (fun r => decide (r.originalQuery = q))) =
      if (env q a).isOk then fqs.count q else 0 := by
  intro fqs
  induction fqs with
  | nil => simp
  | cons q' rest ih =>
    cases hq' : env q' a with
    | ok r =>
      rw [@List.filterMap_cons_some String PrecomputedResponse
        (fun q'' => (env q'' a).toOption) q' rest r
        (by show (env q' a).toOption = some r; rw [hq']; rfl)]
      have hr : r.originalQuery = q' := horig q' r hq'
      by_cases hqq : q' = q
      · subst hqq
        rw [List.countP_cons, ih, List.count_cons_self]
        rw [show (env q' a).isOk = true from by rw [hq']; rfl]
        simp [hr]
      · rw [List.countP_cons, ih]
        have hpr : (decide (r.originalQuery = q)) = false := by
          simp [hr, hqq]
        rw [hpr, List.count_cons_of_ne (fun hh => hqq hh.symm)]
        simp
    | error e =>
      rw [@List.filterMap_cons_none String PrecomputedResponse
        (fun q'' => (env q'' a).toOption) q' rest
        (by show (env q' a).toOption = none; rw [hq']; rfl)]
      rw [ih]
      by_cases hqq : q' = q
      · subst hqq
        rw [show (env q' a).isOk = false from by rw [hq']; rfl]
        simp
      · rw [List.count_cons_of_ne (fun hh => hqq hh.symm)]

theorem count_errPart (env : QueryEnv) (q r₀ : String)
    (hfail : env q 0 = Except.error r₀) (hqd : '"' ∉ q.data) :
    ∀ queries : List String, (∀ q' ∈ queries, '"' ∉ q'.data) →
      ((queries.filterMap (fun q' =>
        match env q' 0 with
        | .ok _ => none
        | .error reason => some (errorMessage q' reason))).count (errorMessage q r₀)) =
      queries.count q := by
  intro queries
  induction queries with
  | nil => intro h; rfl
  | cons q' rest ih =>
    intro h
    have hq'd : '"' ∉ q'.data := h q' (by simp)
    have hrest : ∀ x ∈ rest, '"' ∉ x.data := fun x hx => h x (by simp [hx])
    cases hq' : env q' 0 with
    | ok v =>
      rw [@List.filterMap_cons_none String String
        (fun q'' => match env q'' 0 with
          | Except.ok _ => none
          | Except.error reason => some (errorMessage q'' reason)) q' rest
        (by show (match env q' 0 with
          | Except.ok _ => none
          | Except.error reason => some (errorMessage q' reason)) = none; rw [hq'])]
      rw [ih hrest]
      have hne : q ≠ q' := by
        intro hh
        rw [hh, hq'] at hfail
        cases hfail
      rw [List.count_cons_of_ne hne]
    | error rr =>
      rw [@List.filterMap_cons_some String String
        (fun q'' => match env q'' 0 with
          | Except.ok _ => none
          | Except.error reason => some (errorMessage q'' reason)) q' rest
        (errorMessage q' rr)
        (by show (match env q' 0 with
          | Except.ok _ => none
          | Except.error reason => some (errorMessage q' reason)) =
            some (errorMessage q' rr); rw [hq'])]
      by_cases hqq : q' = q
      · subst hqq
        rw [hq'] at hfail
        have hrr : rr = r₀ := (Except.error.inj hfail)
        subst hrr
        rw [List.count_cons_self, List.count_cons_self, ih hrest]
      · have hmsg : errorMessage q' rr ≠ errorMessage q r₀ := by
          intro hh
          exact hqq (errorMessage_inj q q' r₀ rr hqd hq'd hh)
        rw [List.count_cons_of_ne (fun hh => hmsg hh.symm),
          List.count_cons_of_ne (fun hh => hqq hh.symm), ih hrest]

theorem failedQueriesOf_batch (env : QueryEnv) :
    ∀ queries : List String, (∀ q' ∈ queries, '"' ∉ q'.data) →
      failedQueriesOf (queries.filterMap (fun q' =>
        match env q' 0 with
        | .ok _ => none
        | .error reason => some (errorMessage q' reason))) =
      (queries.filter (fun q' => (env q' 0).isOk = false)).filter
        (fun q' => q' ≠ "") := by
  intro queries
  induction queries with
  | nil => intro h; rfl
  | cons q' rest ih =>
    intro h
    have hq'd : '"' ∉ q'.data := h q' (by simp)
    have hrest : ∀ x ∈ rest, '"' ∉ x.data := fun x hx => h x (by simp [hx])
    cases hq' : env q' 0 with
    | ok v =>
      rw [@List.filterMap_cons_none String String
        (fun q'' => match env q'' 0 with
          | Except.ok _ => none
          | Except.error reason => some (errorMessage q'' reason)) q' rest
        (by show (match env q' 0 with
          | Except.ok _ => none
          | Except.error reason => some (errorMessage q' reason)) = none; rw [hq'])]
      rw [ih hrest]
      rw [List.filter_cons,
        show decide ((env q' 0).isOk = false) = false from by rw [hq']; rfl]
      simp
    | error rr =>
      rw [@List.filterMap_cons_some String String
        (fun q'' => match env q'' 0 with
          | Except.ok _ => none
          | Except.error reason => some (errorMessage q'' reason)) q' rest
        (errorMessage q' rr)
        (by show (match env q' 0 with
          | Except.ok _ => none
          | Except.error reason => some (errorMessage q' reason)) =
            some (errorMessage q' rr); rw [hq'])]
      show ((errorMessage q' rr :: _).filterMap extractQuery).filter
        (fun x => x ≠ "") = _
      rw [@List.filterMap_cons_some String String extractQuery
        (errorMessage q' rr) _ q' (extractQuery_errorMessage q' rr hq'd)]
      have hfailq : (decide ((env q' 0).isOk = false)) = true := by
        rw [hq']
        rfl
      rw [show ((q' :: rest).filter (fun q'' => (env q'' 0).isOk = false)) =
          q' :: (rest.filter (fun q'' => (env q'' 0).isOk = false)) from by
        rw [List.filter_cons, hfailq]
        simp]
      rw [List.filter_cons, List.filter_cons]
      have hih : (((rest.filterMap (fun q'' =>
          match env q'' 0 with
          | Except.ok _ => none
          | Except.error reason => some (errorMessage q'' reason))).filterMap
            extractQuery).filter (fun x => x ≠ "")) =
          ((rest.filter (fun q'' => (env q'' 0).isOk = false)).filter
            (fun q'' => q'' ≠ "")) := ih hrest
      rw [hih]

theorem retryAttempts_one (env : QueryEnv) (fqs : List String) (attempt : Nat)
    (job : PrecomputeJob) :
    retryAttempts env fqs attempt 1 job = (retryRound env attempt fqs job).2 := by
  unfold retryAttempts
  by_cases h : (retryRound env attempt fqs job).1.isEmpty = true
  · simp [h]
  · simp [h, retryAttempts]

theorem retryAttempts_step (env : QueryEnv) (fqs : List String)
    (attempt fuel : Nat) (job : PrecomputeJob)
    (h : (retryRound env attempt fqs job).1 ≠ []) :
    retryAttempts env fqs attempt (fuel + 1) job =
      retryAttempts env fqs (attempt + 1) fuel (retryRound env attempt fqs job).2 := by
  simp only [retryAttempts]
  rw [if_neg (by simpa [List.isEmpty_iff] using h)]

theorem retryRound_eq_foldl (env : QueryEnv) (attempt : Nat)
    (fqs : List String) (job : PrecomputeJob) :
    retryRound env attempt fqs job =
      (fqs.filter (fun q => (env q attempt).isOk = false),
       { job with
         results := job.results ++ fqs.filterMap (fun q => (env q attempt).toOption)
         errors := job.errors.filter (fun e => fqs.all (fun q =>
           match env q attempt with
           | .ok _ => !(includesStr e q)
           | .error _ => true)) }) := by
  show fqs.foldl _ ([], job) = _
  rw [retryRound_foldl_spec]
  rfl

/-- Scenario: `q` occurs once among the retried queries, fails every retry
round before the last one and succeeds in the last round (`attempt + fuel - 1`).
Then exactly one response for `q` is pushed, and afterwards no error string
contains `q`. -/
theorem retryAttempts_late_success (env : QueryEnv) (fqs : List String)
    (q : String) (hcount : fqs.count q = 1)
    (horig : ∀ q' a r, env q' a = Except.ok r → r.originalQuery = q') :
    ∀ (fuel : Nat), 1 ≤ fuel → ∀ (attempt : Nat) (job : PrecomputeJob),
      (∀ a, attempt ≤ a → a + 1 < attempt + fuel → (env q a).isOk = false) →
      (env q (attempt + fuel - 1)).isOk = true →
      (retryAttempts env fqs attempt fuel job).results.countP
          (fun r => decide (r.originalQuery = q)) =
        job.results.countP (fun r => decide (r.originalQuery = q)) + 1 ∧
      (∀ e ∈ (retryAttempts env fqs attempt fuel job).errors,
        includesStr e q = false) := by
  have hqmem : q ∈ fqs := by
    by_contra hq
    rw [List.count_eq_zero_of_not_mem hq] at hcount
    simp at hcount
  intro fuel
  induction fuel with
  | zero => intro h1; omega
  | succ f ih =>
    intro h1 attempt job hfail hsucc
    cases f with
    | zero =>
      have hsucc' : (env q attempt).isOk = true := by
        have harith : attempt + (0 + 1) - 1 = attempt := by omega
        rwa [harith] at hsucc
      obtain ⟨resp, henv⟩ : ∃ r, env q attempt = Except.ok r := by
        cases henvq : env q attempt with
        | ok r => exact ⟨r, rfl⟩
        | error e =>
          rw [henvq] at hsucc'
          rw [show (Except.error e : Except String PrecomputedResponse).isOk = false
            from rfl] at hsucc'
          simp at hsucc'
      have hress : (retryRound env attempt fqs job).2.results =
          job.results ++ fqs.filterMap (fun q' => (env q' attempt).toOption) := by
        rw [retryRound_eq_foldl]
      have herrs : (retryRound env attempt fqs job).2.errors =
          job.errors.filter (fun e => fqs.all (fun q' =>
            match env q' attempt with
            | Except.ok _ => !(includesStr e q')
            | Except.error _ => true)) := by
        rw [retryRound_eq_foldl]
      rw [retryAttempts_one]
      constructor
      · rw [hress, List.countP_append,
          countP_pushes env attempt q (fun q' r h => horig q' attempt r h) fqs,
          hsucc', if_pos rfl, hcount]
      · intro e he
        rw [herrs] at he
        have hmem := List.mem_filter.mp he
        have hall := List.all_eq_true.mp hmem.2 q hqmem
        rw [henv] at hall
        simpa using hall
    | succ f' =>
      have hfail0 : (env q attempt).isOk = false := hfail attempt le_rfl (by omega)
      have hqrem : q ∈ (retryRound env attempt fqs job).1 := by
        rw [retryRound_eq_foldl]
        exact List.mem_filter.mpr ⟨hqmem, by rw [hfail0]; simp⟩
      rw [retryAttempts_step env fqs attempt (f' + 1) job (List.ne_nil_of_mem hqrem)]
      have ihres := ih (by omega) (attempt + 1) (retryRound env attempt fqs job).2
        (fun a ha1 ha2 => hfail a (by omega) (by omega))
        (by
          have harith : attempt + 1 + (f' + 1) - 1 = attempt + (f' + 1 + 1) - 1 := by
            omega
          rw [harith]
          exact hsucc)
      have hress : (retryRound env attempt fqs job).2.results =
          job.results ++ fqs.filterMap (fun q' => (env q' attempt).toOption) := by
        rw [retryRound_eq_foldl]
      refine ⟨?_, ihres.2⟩
      rw [ihres.1]
      congr 1
      rw [hress, List.countP_append,
        countP_pushes env attempt q (fun q' r h => horig q' attempt r h) fqs,
        hfail0]
      simp

/-- Scenario: `q` is among the retried queries and fails every round the fuel
allows; no other retried query's text occurs inside `msg`.  Then the number of
copies of `msg` among the errors is unchanged, and no response for `q` is ever
pushed. -/
theorem retryAttempts_all_fail (env : QueryEnv) (fqs : List String)
    (q msg : String) (hqmem : q ∈ fqs)
    (hnosub : ∀ q' ∈ fqs, q' ≠ q → includesStr msg q' = false)
    (horig : ∀ q' a r, env q' a = Except.ok r → r.originalQuery = q') :
    ∀ (fuel attempt : Nat) (job : PrecomputeJob),
      (∀ a, attempt ≤ a → a < attempt + fuel → (env q a).isOk = false) →
      (retryAttempts env fqs attempt fuel job).errors.count msg =
        job.errors.count msg ∧
      (retryAttempts env fqs attempt fuel job).results.countP
          (fun r => decide (r.originalQuery = q)) =
        job.results.countP (fun r => decide (r.originalQuery = q)) := by
  intro fuel
  induction fuel with
  | zero => intro attempt job hfail; exact ⟨rfl, rfl⟩
  | succ f ih =>
    intro attempt job hfail
    have hfail0 : (env q attempt).isOk = false := hfail attempt le_rfl (by omega)
    have hqrem : q ∈ (retryRound env attempt fqs job).1 := by
      rw [retryRound_eq_foldl]
      exact List.mem_filter.mpr ⟨hqmem, by rw [hfail0]; simp⟩
    rw [retryAttempts_step env fqs attempt f job (List.ne_nil_of_mem hqrem)]
    have ihr := ih (attempt + 1) (retryRound env attempt fqs job).2
      (fun a h1 h2 => hfail a (by omega) (by omega))
    have hmsg_all : ((fun e => fqs.all (fun q' =>
        match env q' attempt with
        | Except.ok _ => !(includesStr e q')
        | Except.error _ => true)) msg) = true := by
      show (fqs.all (fun q' =>
        match env q' attempt with
        | Except.ok _ => !(includesStr msg q')
        | Except.error _ => true)) = true
      rw [List.all_eq_true]
      intro q' hq'
      cases henq : env q' attempt with
      | ok r =>
        have hne : q' ≠ q := by
          intro hh
          rw [hh] at henq
          rw [henq] at hfail0
          rw [show (Except.ok r : Except String PrecomputedResponse).isOk = true
            from rfl] at hfail0
          simp at hfail0
        simp [hnosub q' hq' hne]
      | error e => simp
    have hress : (retryRound env attempt fqs job).2.results =
        job.results ++ fqs.filterMap (fun q' => (env q' attempt).toOption) := by
      rw [retryRound_eq_foldl]
    have herrs : (retryRound env attempt fqs job).2.errors =
        job.errors.filter (fun e => fqs.all (fun q' =>
          match env q' attempt with
          | Except.ok _ => !(includesStr e q')
          | Except.error _ => true)) := by
      rw [retryRound_eq_foldl]
    constructor
    · rw [ihr.1, herrs]
      exact @List.count_filter String _ _ (fun e => fqs.all (fun q' =>
        match env q' attempt with
        | Except.ok _ => !(includesStr e q')
        | Except.error _ => true)) msg job.errors hmsg_all
    · rw [ihr.2, hress, List.countP_append,
        countP_pushes env attempt q (fun q' r h => horig q' attempt r h) fqs,
        hfail0]
      simp


theorem executeJob_ok (st : ManagerState) (jobId : String) (env : QueryEnv)
    (opts : BatchPrecomputeOptions) (startT endT : Int) (job : PrecomputeJob)
    (hj : mapGet st.jobs jobId = some job) (hp : st.isProcessing = false) :
    executeJob st jobId env opts startT endT = Except.ok
      (executeJobFinish
        (⟨mapSet st.jobs jobId { job with status := JobStatus.running, startTime := startT },
          true⟩ : ManagerState) jobId
        (executeJobRun env opts endT { job with status := JobStatus.running, startTime := startT }),
       executeJobRun env opts endT { job with status := JobStatus.running, startTime := startT }) := by
  unfold executeJob
  rw [executeJobStart_ok st jobId startT job hj hp]
  rfl

theorem runBatchLoop_spec (env : QueryEnv) (opts : BatchPrecomputeOptions)
    (job : PrecomputeJob) (hB : 1 ≤ opts.batchSize) :
    (runBatchLoop env opts job).results =
      job.results ++ job.queries.filterMap (fun q => (env q 0).toOption) ∧
    (runBatchLoop env opts job).errors =
      job.errors ++ job.queries.filterMap (fun q =>
        match env q 0 with
        | .ok _ => none
        | .error reason => some (errorMessage q reason)) := by
  unfold runBatchLoop
  rw [foldl_runBatch_spec]
  rw [createBatches_flatten job.queries opts.batchSize hB]
  exact ⟨rfl, rfl⟩

theorem executeJobRun_with_retry (env : QueryEnv) (opts : BatchPrecomputeOptions)
    (endT : Int) (job : PrecomputeJob) (hretry : opts.retryFailedQueries = true)
    (herr1 : (runBatchLoop env opts job).errors ≠ [])
    (hfqs : failedQueriesOf ((runBatchLoop env opts job).errors) ≠ []) :
    executeJobRun env opts endT job =
      { retryAttempts env (failedQueriesOf ((runBatchLoop env opts job).errors)) 1
          opts.maxRetries (runBatchLoop env opts job) with
        status := JobStatus.completed
        endTime := some endT } := by
  simp only [executeJobRun, retryFailedQueries]
  rw [hretry]
  rw [show (!(runBatchLoop env opts job).errors.isEmpty) = true from by
    simp [List.isEmpty_iff, herr1]]
  simp [List.isEmpty_iff, hfqs]

/-- **C3** (amended; the counterexample shows why the original claim fails).
Scope: retries enabled, `batchSize ≥ 1`, `maxRetries ≥ 1`, quote-free queries,
the query `q` nonempty and occurring exactly once, responses recording their
own query, and `q` failing the initial batch pass with reason `r₀`.
(a) If `q` fails retry rounds `1..maxRetries−1` and succeeds on round
`maxRetries`, the finished job holds exactly one result for `q` and no error
entry mentioning `q`.
(b) If `q` also fails every retry round, then — provided no other query's text
occurs as a substring of `q`'s error string (the code removes error entries by
substring `includes`, so without this proviso a successfully retried sibling
can delete `q`'s entry) — `q`'s error entry survives exactly once and no
result for `q` exists. -/
theorem C3_retry_outcomes_amended (st : ManagerState) (jobId : String)
    (env : QueryEnv) (opts : BatchPrecomputeOptions) (startT endT : Int)
    (job0 : PrecomputeJob) (q r₀ : String)
    (hj : mapGet st.jobs jobId = some job0) (hquiet : st.isProcessing = false)
    (hres0 : job0.results = []) (herr0 : job0.errors = [])
    (hB : 1 ≤ opts.batchSize) (hretry : opts.retryFailedQueries = true)
    (hm : 1 ≤ opts.maxRetries)
    (hquotes : ∀ q' ∈ job0.queries, '\"' ∉ q'.data)
    (hcount : job0.queries.count q = 1) (hqne : q ≠ "")
    (horig : ∀ q' a r, env q' a = Except.ok r → r.originalQuery = q')
    (hfail0 : env q 0 = Except.error r₀) :
    ((∀ a, 1 ≤ a → a < opts.maxRetries → (env q a).isOk = false) →
     (env q opts.maxRetries).isOk = true →
     ∀ stF jobF, executeJob st jobId env opts startT endT = Except.ok (stF, jobF) →
       jobF.results.countP (fun r => decide (r.originalQuery = q)) = 1 ∧
       (∀ e ∈ jobF.errors, includesStr e q = false)) ∧
    ((∀ a, a ≤ opts.maxRetries → (env q a).isOk = false) →
     (∀ q' ∈ job0.queries, q' ≠ q → includesStr (errorMessage q r₀) q' = false) →
     ∀ stF jobF, executeJob st jobId env opts startT endT = Except.ok (stF, jobF) →
       jobF.errors.count (errorMessage q r₀) = 1 ∧
       jobF.results.countP (fun r => decide (r.originalQuery = q)) = 0) := by
  have hexec := executeJob_ok st jobId env opts startT endT job0 hj hquiet
  have hqmem0 : q ∈ job0.queries := by
    by_contra h
    rw [List.count_eq_zero_of_not_mem h] at hcount
    simp at hcount
  have hqd : '\"' ∉ q.data := hquotes q hqmem0
  have hloop := runBatchLoop_spec env opts
    { job0 with status := JobStatus.running, startTime := startT } hB
  have h1err : (runBatchLoop env opts
      { job0 with status := JobStatus.running, startTime := startT }).errors =
      job0.queries.filterMap (fun q' =>
        match env q' 0 with
        | .ok _ => none
        | .error reason => some (errorMessage q' reason)) := by
    rw [hloop.2]
    rw [show ({ job0 with status := JobStatus.running, startTime := startT } :
      PrecomputeJob).errors = [] from herr0]
    rw [show ({ job0 with status := JobStatus.running, startTime := startT } :
      PrecomputeJob).queries = job0.queries from rfl]
    simp
  have h1res : (runBatchLoop env opts
      { job0 with status := JobStatus.running, startTime := startT }).results =
      job0.queries.filterMap (fun q' => (env q' 0).toOption) := by
    rw [hloop.1]
    rw [show ({ job0 with status := JobStatus.running, startTime := startT } :
      PrecomputeJob).results = [] from hres0]
    rw [show ({ job0 with status := JobStatus.running, startTime := startT } :
      PrecomputeJob).queries = job0.queries from rfl]
    simp
  have hmsg_count : (runBatchLoop env opts
      { job0 with status := JobStatus.running, startTime := startT }).errors.count
        (errorMessage q r₀) = 1 := by
    rw [h1err, count_errPart env q r₀ hfail0 hqd job0.queries hquotes, hcount]
  have herr1_ne : (runBatchLoop env opts
      { job0 with status := JobStatus.running, startTime := startT }).errors ≠ [] := by
    intro hnil
    rw [hnil] at hmsg_count
    simp at hmsg_count
  have hfqs_eq : failedQueriesOf ((runBatchLoop env opts
      { job0 with status := JobStatus.running, startTime := startT }).errors) =
      (job0.queries.filter (fun q' => (env q' 0).isOk = false)).filter
        (fun q' => q' ≠ "") := by
    rw [h1err]
    exact failedQueriesOf_batch env job0.queries hquotes
  have hfqs_count : (failedQueriesOf ((runBatchLoop env opts
      { job0 with status := JobStatus.running, startTime := startT }).errors)).count q = 1 := by
    rw [hfqs_eq]
    rw [@List.count_filter String _ _ (fun q' => decide (q' ≠ "")) q
      (job0.queries.filter (fun q' => (env q' 0).isOk = false)) (by simp [hqne])]
    rw [@List.count_filter String _ _ (fun q' => decide ((env q' 0).isOk = false)) q
      job0.queries (by show decide ((env q 0).isOk = false) = true; rw [hfail0]; rfl)]
    exact hcount
  have hqmem_fqs : q ∈ failedQueriesOf ((runBatchLoop env opts
      { job0 with status := JobStatus.running, startTime := startT }).errors) := by
    by_contra h
    rw [List.count_eq_zero_of_not_mem h] at hfqs_count
    simp at hfqs_count
  have hfqs_ne : failedQueriesOf ((runBatchLoop env opts
      { job0 with status := JobStatus.running, startTime := startT }).errors) ≠ [] :=
    List.ne_nil_of_mem hqmem_fqs
  have hrun_eq := executeJobRun_with_retry env opts endT
    { job0 with status := JobStatus.running, startTime := startT } hretry herr1_ne hfqs_ne
  have hres_count0 : (runBatchLoop env opts
      { job0 with status := JobStatus.running, startTime := startT }).results.countP
        (fun r => decide (r.originalQuery = q)) = 0 := by
    rw [h1res, countP_pushes env 0 q (fun q' r h => horig q' 0 r h) job0.queries]
    rw [hfail0]
    rfl
  constructor
  · intro ha hsucc stF jobF hrunok
    rw [hexec] at hrunok
    have hjobF : jobF = executeJobRun env opts endT
        { job0 with status := JobStatus.running, startTime := startT } :=
      (congrArg Prod.snd (Except.ok.inj hrunok)).symm
    have hlate := retryAttempts_late_success env
      (failedQueriesOf ((runBatchLoop env opts
        { job0 with status := JobStatus.running, startTime := startT }).errors)) q
      hfqs_count horig opts.maxRetries hm 1
      (runBatchLoop env opts { job0 with status := JobStatus.running, startTime := startT })
      (fun a h1 h2 => ha a h1 (by omega))
      (by
        have harith : 1 + opts.maxRetries - 1 = opts.maxRetries := by omega
        rw [harith]
        exact hsucc)
    have hfres : jobF.results = (retryAttempts env
        (failedQueriesOf ((runBatchLoop env opts
          { job0 with status := JobStatus.running, startTime := startT }).errors)) 1
        opts.maxRetries
        (runBatchLoop env opts
          { job0 with status := JobStatus.running, startTime := startT })).results := by
      rw [hjobF, hrun_eq]
    have hferr : jobF.errors = (retryAttempts env
        (failedQueriesOf ((runBatchLoop env opts
          { job0 with status := JobStatus.running, startTime := startT }).errors)) 1
        opts.maxRetries
        (runBatchLoop env opts
          { job0 with status := JobStatus.running, startTime := startT })).errors := by
      rw [hjobF, hrun_eq]
    constructor
    · rw [hfres, hlate.1, hres_count0]
    · intro e he
      rw [hferr] at he
      exact hlate.2 e he
  · intro hb hnosub stF jobF hrunok
    rw [hexec] at hrunok
    have hjobF : jobF = executeJobRun env opts endT
        { job0 with status := JobStatus.running, startTime := startT } :=
      (congrArg Prod.snd (Except.ok.inj hrunok)).symm
    have hnosub' : ∀ q' ∈ failedQueriesOf ((runBatchLoop env opts
        { job0 with status := JobStatus.running, startTime := startT }).errors),
        q' ≠ q → includesStr (errorMessage q r₀) q' = false := by
      intro q' hq' hne
      apply hnosub q' ?_ hne
      rw [hfqs_eq] at hq'
      exact (List.mem_filter.mp ((List.mem_filter.mp hq').1)).1
    have hall := retryAttempts_all_fail env
      (failedQueriesOf ((runBatchLoop env opts
        { job0 with status := JobStatus.running, startTime := startT }).errors)) q
      (errorMessage q r₀) hqmem_fqs hnosub' horig opts.maxRetries 1
      (runBatchLoop env opts { job0 with status := JobStatus.running, startTime := startT })
      (fun a h1 h2 => hb a (by omega))
    have hfres : jobF.results = (retryAttempts env
        (failedQueriesOf ((runBatchLoop env opts
          { job0 with status := JobStatus.running, startTime := startT }).errors)) 1
        opts.maxRetries
        (runBatchLoop env opts
          { job0 with status := JobStatus.running, startTime := startT })).results := by
      rw [hjobF, hrun_eq]
    have hferr : jobF.errors = (retryAttempts env
        (failedQueriesOf ((runBatchLoop env opts
          { job0 with status := JobStatus.running, startTime := startT }).errors)) 1
        opts.maxRetries
        (runBatchLoop env opts
          { job0 with status := JobStatus.running, startTime := startT })).errors := by
      rw [hjobF, hrun_eq]
    constructor
    · rw [hferr, hall.1, hmsg_count]
    · rw [hfres, hall.2, hres_count0]

/-- The C3 theorem instantiated: (a) at `envC3a`, where query `"a"` fails the
batch pass and the first retry round and succeeds on the last round; (b) at
`envC3b`, where `"aaa"` fails every attempt and `"bbb"` shares no substring
with its error entry. -/
theorem C3_retry_outcomes_amended_witness :
    (∀ stF jobF, executeJob c3aState "J" envC3a optsC3 10 20 = Except.ok (stF, jobF) →
      jobF.results.countP (fun r => decide (r.originalQuery = "a")) = 1 ∧
      (∀ e ∈ jobF.errors, includesStr e "a" = false)) ∧
    (∀ stF jobF, executeJob c3bState "J" envC3b optsC3 10 20 = Except.ok (stF, jobF) →
      jobF.errors.count (errorMessage "aaa" "boom") = 1 ∧
      jobF.results.countP (fun r => decide (r.originalQuery = "aaa")) = 0) := by
  constructor
  · exact (C3_retry_outcomes_amended c3aState "J" envC3a optsC3 10 20
      (createJob ⟨[], false⟩ "J" 0 ["a", "b"]).2 "a" "boom"
      (by decide) (by decide) rfl rfl (by decide) rfl (by decide)
      (by decide) (by decide) (by decide)
      (fun q' a r h => by
        simp only [envC3a] at h
        split at h
        · exact Except.noConfusion h
        · rw [← Except.ok.inj h]
          rfl)
      rfl).1
      (fun a h1 h2 => by
        have hm2 : optsC3.maxRetries = 2 := rfl
        have ha1 : a = 1 := by omega
        subst ha1
        decide)
      (by decide)
  · exact (C3_retry_outcomes_amended c3bState "J" envC3b optsC3 10 20
      (createJob ⟨[], false⟩ "J" 0 ["aaa", "bbb"]).2 "aaa" "boom"
      (by decide) (by decide) rfl rfl (by decide) rfl (by decide)
      (by decide) (by decide) (by decide)
      (fun q' a r h => by
        simp only [envC3b] at h
        split at h
        · exact Except.noConfusion h
        · rw [← Except.ok.inj h]
          rfl)
      rfl).2
      (fun a h => rfl)
      (by decide)

/-- **C3 counterexample.**  Queries `["uer", "b"]`, batch size 5, 3 retry
rounds; `"uer"` fails the batch pass and succeeds on every retry round, `"b"`
always fails.  The source's retry loop never reassigns `failedQueries`, so the
succeeding `"uer"` is retried — and its result pushed — once per round (3
results for one query), and error removal by substring `includes` lets the
`"uer"` success delete `"b"`'s error entry because `"uer"` is a substring of
the word `Query` in the message header: the finished job reports no errors at
all even though `"b"` never succeeded. -/
theorem C3_retry_exact_once_counterexample :
    (match executeJob c3cState "J" envC3c optsC3c 10 20 with
     | .ok p => (p.2.errors, p.2.results.map (fun r => r.originalQuery))
     | .error e => ([e], [])) = ([], ["uer", "uer", "uer"]) := by decide

end PrecomputeManager

end XAIAssist
